import Mathlib

/-
Verification development for the import-product repository.

The CSV import pipeline (products/services/csv_importer.py), the upload-job
ledger (products/models.py) and the webhook delivery task and statistics
(webhooks/tasks.py, webhooks/models.py) are shallowly embedded below.
Python strings are modelled as lists of characters; Python dicts that carry
row data are modelled as association lists with last-write-wins assignment;
the product table is a list of product records whose unique key is the
sku_lower column; fallible code returns Except / Option values.
-/

namespace ImportProduct

/-! ## Python string primitives -/

/-- Python strings are modelled as lists of characters. -/
abbrev Str := List Char

/-- Conversion from a Lean string literal to the model's string type. -/
def lit (s : String) : Str := s.data

/-- Whitespace test used by Python str.strip / str.split with no arguments. -/
def isWs (c : Char) : Bool := c.isWhitespace

/-- Python str.lower (ASCII behaviour). -/
def pyLower (s : Str) : Str := s.map Char.toLower

/-- Python str.lstrip with no arguments. -/
def pyStripL (s : Str) : Str := s.dropWhile isWs

/-- Removal of a trailing whitespace run, i.e. Python str.rstrip. -/
def pyStripR : Str → Str
  | [] => []
  | c :: cs =>
    let r := pyStripR cs
    if r = [] ∧ isWs c then [] else c :: r

/-- Python str.strip with no arguments. -/
def pyStrip (s : Str) : Str := pyStripR (pyStripL s)

/-- Python slicing s[:n]. -/
def pyTake (n : Nat) (s : Str) : Str := s.take n

/-- Helper for str.split(): accumulate the current word (reversed) and split
on whitespace runs, dropping empty pieces. -/
def wordsAux : Str → Str → List Str
  | [], acc => if acc = [] then [] else [acc.reverse]
  | c :: cs, acc =>
    if isWs c then
      if acc = [] then wordsAux cs [] else acc.reverse :: wordsAux cs []
    else
      wordsAux cs (c :: acc)

/-- Python str.split() with no arguments. -/
def pySplit (s : Str) : List Str := wordsAux s []

/-- Python ' '.join(pieces). -/
def pyJoinSpace : List Str → Str
  | [] => []
  | w :: ws => ws.foldl (fun acc x => acc ++ ' ' :: x) w

/-- The value cleaning applied to every CSV cell:
' '.join(str(v).split()) (csv_importer.py line 83). -/
def collapseWs (s : Str) : Str := pyJoinSpace (pySplit s)

/-! ## Row dictionaries -/

/-- A raw CSV row as produced by csv.DictReader: an association of header
keys to optional cell values. -/
abbrev RawRow := List (Str × Option Str)

/-- A Python dict from strings to strings, assignment being
last-write-wins. -/
abbrev PyDict := List (Str × Str)

/-- Python dict assignment d[k] = v. -/
def dictSet (d : PyDict) (k v : Str) : PyDict :=
  if d.any (fun kv => kv.1 == k) then
    d.map (fun kv => if kv.1 == k then (k, v) else kv)
  else
    d ++ [(k, v)]

/-- Python dict lookup d.get(k). -/
def dictGet (d : PyDict) (k : Str) : Option Str :=
  (d.find? (fun kv => kv.1 == k)).map (fun kv => kv.2)

/-! ## Error messages

The importer's error strings are modelled as a closed enumeration; each
constructor corresponds to one literal message of csv_importer.py. -/

/-- Error messages raised by the importer. skuRequired, nameRequired and
skuWhitespace are the three normalize_row ValueError messages;
bulkRowFailed sku is the fallback message f"SKU {sku}: ..."; headerMissing
col is f"Missing required column: {col}". -/
inductive ErrMsg where
  | skuRequired
  | nameRequired
  | skuWhitespace
  | bulkRowFailed (sku : Str)
  | headerMissing (col : Str)
deriving DecidableEq, Repr

/-- A normalized row, the dictionary produced by normalize_row restricted
to the three fields every consumer reads. -/
structure NormRow where
  sku : Str
  name : Str
  description : Str
deriving DecidableEq, Repr

/-- CSVImporter.normalize_row (csv_importer.py lines 67-109). -/
def normalize_row (row : RawRow) : Except ErrMsg NormRow :=
  let normalized : PyDict := row.foldl (fun d kv =>
    dictSet d (pyStrip (pyLower kv.1))
      (match kv.2 with
       | some v => pyStrip (collapseWs v)
       | none => [])) []
  match dictGet normalized (lit "sku") with
  | none => .error .skuRequired
  | some sv =>
    if pyStrip sv = [] then .error .skuRequired
    else
      match dictGet normalized (lit "name") with
      | none => .error .nameRequired
      | some nv =>
        if pyStrip nv = [] then .error .nameRequired
        else
          let sku1 := pyStrip sv
          if sku1 = [] then .error .skuWhitespace
          else
            let desc :=
              match dictGet normalized (lit "description") with
              | none => []
              | some dv => dv
            .ok ⟨pyTake 255 sku1, pyStrip (pyTake 500 nv), desc⟩

/-- CSVImporter.validate_headers (lines 48-65); REQUIRED_COLUMNS is
['name', 'sku'] and the check is case-insensitive after trimming.
Returns the message of the first missing required column, none if valid. -/
def validate_headers (headers : List Str) : Option ErrMsg :=
  let hl := headers.map (fun h => pyStrip (pyLower h))
  if hl.contains (lit "name") = false then some (.headerMissing (lit "name"))
  else if hl.contains (lit "sku") = false then some (.headerMissing (lit "sku"))
  else none

/-! ## Products and the product table -/

/-- products.models.Product restricted to its importer-visible columns;
sku_lower is the unique key. -/
structure Product where
  sku : Str
  sku_lower : Str
  name : Str
  description : Str
  is_active : Bool
deriving DecidableEq, Repr

/-- Lookup of a product row by its unique sku_lower column. -/
def findBySkuLower (t : List Product) (k : Str) : Option Product :=
  t.find? (fun p => p.sku_lower == k)

/-- Whether the table holds a row with the given sku_lower key. -/
def keyPresent (t : List Product) (k : Str) : Bool :=
  (findBySkuLower t k).isSome

/-! ## Upload job ledger -/

/-- One entry of UploadJob.error_details (products/models.py add_error). -/
structure ErrorEntry where
  row : Nat
  msg : ErrMsg
deriving DecidableEq, Repr

/-- UploadJob.status values. -/
inductive JobStatus where
  | pending
  | processing
  | completed
  | failed
deriving DecidableEq, Repr

/-- The UploadJob ledger fields the importer mutates. -/
structure UploadJob where
  status : JobStatus
  total_rows : Nat
  processed_rows : Nat
  success_count : Nat
  error_count : Nat
  created_count : Nat
  updated_count : Nat
  skipped_count : Nat
  error_details : List ErrorEntry
deriving DecidableEq, Repr

/-- A freshly created upload job (all counters at their defaults). -/
def initJob : UploadJob :=
  ⟨.pending, 0, 0, 0, 0, 0, 0, 0, []⟩

/-- UploadJob.add_error (models.py lines 129-140). -/
def UploadJob.add_error (j : UploadJob) (row : Nat) (msg : ErrMsg) : UploadJob :=
  { j with error_details := j.error_details ++ [⟨row, msg⟩],
           error_count := j.error_count + 1 }

/-- UploadJob.mark_as_processing (models.py lines 142-146). -/
def UploadJob.mark_as_processing (j : UploadJob) : UploadJob :=
  { j with status := .processing }

/-- UploadJob.mark_as_completed (models.py lines 148-152). -/
def UploadJob.mark_as_completed (j : UploadJob) : UploadJob :=
  { j with status := .completed }

/-- UploadJob.mark_as_failed (models.py lines 154-160). -/
def UploadJob.mark_as_failed (j : UploadJob) (msg : Option ErrMsg) : UploadJob :=
  let j1 := { j with status := JobStatus.failed }
  match msg with
  | some m => j1.add_error 0 m
  | none => j1

/-! ## Importer statistics and state -/

/-- CSVImporter.stats (csv_importer.py lines 39-46). -/
structure Stats where
  total : Nat
  processed : Nat
  created : Nat
  updated : Nat
  skipped : Nat
  errors : Nat
deriving DecidableEq, Repr

/-- All-zero statistics of a fresh importer. -/
def initStats : Stats := ⟨0, 0, 0, 0, 0, 0⟩

/-- The mutable state threaded through an import run: the in-memory stats,
the durable job ledger and the product table. -/
structure ImporterState where
  stats : Stats
  job : UploadJob
  table : List Product
deriving DecidableEq, Repr

/-! ## Webhook statistics (webhooks/models.py) -/

/-- Webhook delivery statistics counters. -/
structure WebhookStats where
  total_triggers : Nat
  successful_triggers : Nat
  failed_triggers : Nat
deriving DecidableEq, Repr

/-- Webhook.record_trigger (webhooks/models.py lines 78-93). -/
def record_trigger (w : WebhookStats) (success : Bool) : WebhookStats :=
  let w1 := { w with total_triggers := w.total_triggers + 1 }
  if success then
    { w1 with successful_triggers := w1.successful_triggers + 1 }
  else
    { w1 with failed_triggers := w1.failed_triggers + 1 }

/-! ## Webhook delivery task (webhooks/tasks.py send_webhook) -/

/-- Behaviour of the target endpoint on one attempt: an HTTP response with
a status code, or a transport-level failure (requests.RequestException). -/
inductive HttpResult where
  | resp (status : Nat)
  | transportError
deriving DecidableEq, Repr

/-- One WebhookLog row as created by send_webhook. -/
structure LogEntry where
  status_code : Option Nat
  is_successful : Bool
  retry_count : Nat
deriving DecidableEq, Repr

/-- Durable effects of the delivery task: the log table and the webhook's
statistics counters. -/
structure DeliveryState where
  logs : List LogEntry
  webhook : WebhookStats
deriving DecidableEq, Repr

/-- Control outcome of one execution of the task body. -/
inductive AttemptResult where
  | done (status : Nat)
  | retryRequested
  | permanentFailure
deriving DecidableEq, Repr

/-- One execution of the send_webhook task body (tasks.py lines 30-105) at
Celery retry counter r. A 2xx response returns; a non-2xx response logs the
attempt, records a failed trigger and raises a plain Exception, which the
generic handler re-raises (no self.retry call); a transport error logs the
attempt, records a failed trigger and calls self.retry. -/
def sendWebhookAttempt (respond : Nat → HttpResult) (r : Nat)
    (s : DeliveryState) : DeliveryState × AttemptResult :=
  match respond r with
  | .resp code =>
    let ok : Bool := decide (200 ≤ code ∧ code < 300)
    let s1 : DeliveryState :=
      ⟨s.logs ++ [⟨some code, ok, r⟩], record_trigger s.webhook ok⟩
    if ok then (s1, .done code) else (s1, .permanentFailure)
  | .transportError =>
    (⟨s.logs ++ [⟨none, false, r⟩], record_trigger s.webhook false⟩,
     .retryRequested)

/-- Final outcome of the task as seen by the task layer. -/
inductive TaskOutcome where
  | succeeded (status : Nat)
  | failed
deriving DecidableEq, Repr

/-- max_retries of the send_webhook shared_task decorator. -/
def send_webhook_max_retries : Nat := 3

/-- Celery driver: run the task body; a raised self.retry re-executes the
body with the retry counter incremented while retries remain, otherwise
the task fails. remaining = max_retries - current retry counter. -/
def runAttempts (respond : Nat → HttpResult) (r : Nat) :
    Nat → DeliveryState → TaskOutcome × DeliveryState
  | remaining, s =>
    match sendWebhookAttempt respond r s with
    | (s1, .done code) => (.succeeded code, s1)
    | (s1, .permanentFailure) => (.failed, s1)
    | (s1, .retryRequested) =>
      match remaining with
      | 0 => (.failed, s1)
      | n + 1 => runAttempts respond (r + 1) n s1

/-- The send_webhook task run to completion by the task layer, starting at
retry counter 0 with the decorator's retry bound. -/
def runSendWebhook (respond : Nat → HttpResult) (s : DeliveryState) :
    TaskOutcome × DeliveryState :=
  runAttempts respond 0 send_webhook_max_retries s

/-! ## process_chunk (csv_importer.py lines 111-241) -/

/-- First loop of process_chunk (lines 122-134): normalize every row; a
failing row increments errors and skipped and appends a job error entry
whose row number is stats['processed'] + idx + 1, idx being the 0-based
position inside the chunk. Returns the updated state and the list of
successfully normalized rows in order. -/
def normalizeAux (st : ImporterState) (idx : Nat) :
    List RawRow → ImporterState × List NormRow
  | [] => (st, [])
  | r :: rs =>
    match normalize_row r with
    | .ok nr =>
      let res := normalizeAux st (idx + 1) rs
      (res.1, nr :: res.2)
    | .error e =>
      normalizeAux
        { st with
          stats := { st.stats with errors := st.stats.errors + 1,
                                   skipped := st.stats.skipped + 1 },
          job := st.job.add_error (st.stats.processed + idx + 1) e }
        (idx + 1) rs

/-- Second loop of process_chunk (lines 140-151): keep rows whose stripped
SKU is non-empty, collecting sku.lower() of the stripped SKU for the
in_bulk filter; a row with an empty SKU only bumps errors and skipped.
Returns the state, the skus_lower list and the valid rows. -/
def validAux (st : ImporterState) :
    List NormRow → ImporterState × List Str × List NormRow
  | [] => (st, [], [])
  | nr :: rest =>
    let sku := pyStrip nr.sku
    if sku = [] then
      validAux
        { st with
          stats := { st.stats with errors := st.stats.errors + 1,
                                   skipped := st.stats.skipped + 1 } }
        rest
    else
      let res := validAux st rest
      (res.1, pyLower sku :: res.2.1, nr :: res.2.2)

/-- The Product record built for a create-set row (lines 178-186);
sku_lower is set manually to row['sku'].lower().strip(). -/
def mkCreateProduct (nr : NormRow) : Product :=
  ⟨nr.sku, pyStrip (pyLower nr.sku), nr.name, nr.description, true⟩

/-- Last-write-wins assignment into the map of pending update targets,
mirroring repeated mutation of the shared fetched product object. -/
def dictSetNR (d : List (Str × NormRow)) (k : Str) (nr : NormRow) :
    List (Str × NormRow) :=
  if d.any (fun e => e.1 == k) then
    d.map (fun e => if e.1 == k then (k, nr) else e)
  else
    d ++ [(k, nr)]

/-- Third loop of process_chunk (lines 165-186): partition valid rows by
row['sku'].lower() against the dict of products fetched by in_bulk over
skus_lower. A hit appends to products_to_update (updOrder counts its
length) and re-mutates the shared fetched object (dictSetNR); a miss
appends a fresh Product to products_to_create. -/
def partitionAux (table : List Product) (skusLower : List Str)
    (acc : List Product × List Str × List (Str × NormRow)) :
    List NormRow → List Product × List Str × List (Str × NormRow)
  | [] => acc
  | nr :: rest =>
    let k := pyLower nr.sku
    let hit := if skusLower.contains k then findBySkuLower table k else none
    let acc1 :=
      match hit with
      | some _ => (acc.1, acc.2.1 ++ [k], dictSetNR acc.2.2 k nr)
      | none => (acc.1 ++ [mkCreateProduct nr], acc.2.1, acc.2.2)
    partitionAux table skusLower acc1 rest

/-- bulk_create with ignore_conflicts (lines 194-206): insert the pending
products in order, silently dropping any whose sku_lower already exists;
the second component is the created count derived from table cardinality
before and after. -/
def bulkCreateIgnore (table : List Product) :
    List Product → List Product × Nat
  | [] => (table, 0)
  | p :: ps =>
    if keyPresent table p.sku_lower then
      bulkCreateIgnore table ps
    else
      let res := bulkCreateIgnore (table ++ [p]) ps
      (res.1, res.2 + 1)

/-- bulk_update (lines 214-220): each fetched object is written back with
the fields of the last row routed to its key; the row is matched by the
unique sku_lower it was fetched under. -/
def applyUpdates (table : List Product) :
    List (Str × NormRow) → List Product
  | [] => table
  | (k, nr) :: rest =>
    applyUpdates
      (table.map (fun q =>
        if q.sku_lower == k then
          { q with sku := nr.sku, sku_lower := pyStrip (pyLower nr.sku),
                   name := nr.name, description := nr.description }
        else q))
      rest

/-- The per-row fallback of the except branch (lines 229-241): save each
create-set product individually; a save that hits an existing sku_lower
fails, bumping errors and skipped and appending a job error entry at row
number stats['processed'] with message f"SKU {sku}: ...". -/
def fallbackCreates (st : ImporterState) :
    List Product → ImporterState
  | [] => st
  | p :: ps =>
    if keyPresent st.table p.sku_lower then
      fallbackCreates
        { st with
          stats := { st.stats with errors := st.stats.errors + 1,
                                   skipped := st.stats.skipped + 1 },
          job := st.job.add_error st.stats.processed (.bulkRowFailed p.sku) }
        ps
    else
      fallbackCreates
        { st with table := st.table ++ [p],
                  stats := { st.stats with created := st.stats.created + 1 } }
        ps

/-- The success path of the atomic block (lines 193-224): bulk_create
with conflict counting, then bulk_update, then the stats updates. parts
is the (creates, updOrder, updMap) triple of the partition loop. -/
def chunkSuccess (st2 : ImporterState)
    (parts : List Product × List Str × List (Str × NormRow)) :
    ImporterState :=
  { st2 with
    table := applyUpdates (bulkCreateIgnore st2.table parts.1).1 parts.2.2,
    stats := { st2.stats with
      created := st2.stats.created + (bulkCreateIgnore st2.table parts.1).2,
      updated := st2.stats.updated + parts.2.1.length,
      skipped := st2.stats.skipped
        + (parts.1.length - (bulkCreateIgnore st2.table parts.1).2) } }

/-- The try/except around the atomic block (lines 192-241): in the
deterministic single-job model the block raises exactly when bulk_create
runs without ignore_conflicts (skip_duplicates off) and some pending
insert conflicts; the except branch then retries only the create set row
by row, the rolled-back updates being dropped. -/
def chunkApply (skipDup : Bool) (st2 : ImporterState)
    (parts : List Product × List Str × List (Str × NormRow)) :
    ImporterState :=
  if skipDup = false ∧ (bulkCreateIgnore st2.table parts.1).2 ≠ parts.1.length
  then fallbackCreates st2 parts.1
  else chunkSuccess st2 parts

/-- CSVImporter.process_chunk (lines 111-241): normalize, filter empty
SKUs, return early when nothing remains, otherwise partition against the
fetched products and apply the bulk operations. -/
def process_chunk (skipDup : Bool) (st : ImporterState)
    (rows : List RawRow) : ImporterState :=
  if (validAux (normalizeAux st 0 rows).1 (normalizeAux st 0 rows).2).2.2 = []
  then (validAux (normalizeAux st 0 rows).1 (normalizeAux st 0 rows).2).1
  else
    chunkApply skipDup
      (validAux (normalizeAux st 0 rows).1 (normalizeAux st 0 rows).2).1
      (partitionAux
        (validAux (normalizeAux st 0 rows).1 (normalizeAux st 0 rows).2).1.table
        (validAux (normalizeAux st 0 rows).1 (normalizeAux st 0 rows).2).2.1
        ([], [], [])
        (validAux (normalizeAux st 0 rows).1 (normalizeAux st 0 rows).2).2.2)

/-- The create set computed by process_chunk for a chunk, exposed for
stating properties of the fallback path. -/
def createSet (st : ImporterState) (rows : List RawRow) : List Product :=
  (partitionAux
    (validAux (normalizeAux st 0 rows).1 (normalizeAux st 0 rows).2).1.table
    (validAux (normalizeAux st 0 rows).1 (normalizeAux st 0 rows).2).2.1
    ([], [], [])
    (validAux (normalizeAux st 0 rows).1 (normalizeAux st 0 rows).2).2.2).1

/-- Whether the atomic bulk operation of process_chunk raises in the
deterministic model: skip_duplicates is off and the insert set has a
key conflict, detected as a created count short of the attempt count. -/
def chunkBulkRaises (skipDup : Bool) (st : ImporterState)
    (rows : List RawRow) : Bool :=
  if (validAux (normalizeAux st 0 rows).1 (normalizeAux st 0 rows).2).2.2 = []
  then false
  else
    !skipDup &&
      (bulkCreateIgnore
        (validAux (normalizeAux st 0 rows).1 (normalizeAux st 0 rows).2).1.table
        (createSet st rows)).2 != (createSet st rows).length

/-! ## import_csv (csv_importer.py lines 271-344) -/

/-- CHUNK_SIZE (line 22). -/
def CHUNK_SIZE : Nat := 1000

/-- update_progress (lines 243-269): copy the in-memory stats into the
ledger fields. -/
def update_progress (st : ImporterState) : ImporterState :=
  { st with job := { st.job with
      processed_rows := st.stats.processed,
      success_count := st.stats.created + st.stats.updated,
      error_count := st.stats.errors,
      created_count := st.stats.created,
      updated_count := st.stats.updated,
      skipped_count := st.stats.skipped } }

/-- Fuel-driven chunk splitting; fuel bounds the number of chunks, one
unit per nonempty chunk of up to CHUNK_SIZE rows. -/
def chunksOfAux : Nat → List RawRow → List (List RawRow)
  | _, [] => []
  | 0, l => [l]
  | fuel + 1, l => l.take CHUNK_SIZE :: chunksOfAux fuel (l.drop CHUNK_SIZE)

/-- The chunks consumed by the processing loop of import_csv (lines
305-328): maximal runs of CHUNK_SIZE rows followed by the remainder. -/
def chunksOf (l : List RawRow) : List (List RawRow) :=
  chunksOfAux l.length l

/-- The processing loop of import_csv: for each chunk, the per-row
processed increments happen while the chunk fills, then the chunk is
processed and the progress persisted. -/
def addProcessed (st : ImporterState) (n : Nat) : ImporterState :=
  { st with stats := { st.stats with
      processed := st.stats.processed + n } }

/-- The processing loop of import_csv over the chunk list; by the time a
chunk is processed, processed already counts the whole chunk. -/
def importChunks (skipDup : Bool) (st : ImporterState) :
    List (List RawRow) → ImporterState
  | [] => st
  | c :: cs =>
    importChunks skipDup
      (update_progress (process_chunk skipDup (addProcessed st c.length) c)) cs

/-- Result of an import run: the final persisted state and the exception
re-raised to the task layer, if any. -/
structure ImportOutcome where
  state : ImporterState
  raised : Option ErrMsg
deriving DecidableEq, Repr

/-- CSVImporter.import_csv (lines 271-344) on a fresh upload job.
fieldnames is csv.DictReader.fieldnames (none for a file with no header
row, in which case validation is skipped); rows are the data rows; table
is the product table at the start of the run. A header validation error
marks the job failed with a row-0 error entry and re-raises. -/
def import_csv (fieldnames : Option (List Str)) (rows : List RawRow)
    (skipDup : Bool) (table : List Product) : ImportOutcome :=
  match (match fieldnames with
         | some hs => validate_headers hs
         | none => none) with
  | some e =>
    ⟨⟨initStats, (initJob.mark_as_processing).mark_as_failed (some e), table⟩,
     some e⟩
  | none =>
    ⟨{ importChunks skipDup
        ⟨{ initStats with total := rows.length },
         { initJob.mark_as_processing with total_rows := rows.length },
         table⟩ (chunksOf rows) with
       job := (importChunks skipDup
          ⟨{ initStats with total := rows.length },
           { initJob.mark_as_processing with total_rows := rows.length },
           table⟩ (chunksOf rows)).job.mark_as_completed },
     none⟩

/-- Whether a raw row normalizes successfully (a "valid row" of the spec). -/
def isOkRow (r : RawRow) : Bool :=
  match normalize_row r with
  | .ok _ => true
  | .error _ => false

/-- Whether an error message is one of the three normalize_row
ValueError messages (a row-level normalization error). -/
def isNormErr : ErrMsg → Bool
  | .skuRequired => true
  | .nameRequired => true
  | .skuWhitespace => true
  | _ => false

/-- The partition key computed for a valid row: row['sku'].lower(). -/
def rowKey (nr : NormRow) : Str := pyLower nr.sku

/-- The successfully normalized rows of a chunk, in order. -/
def chunkOk (rows : List RawRow) : List NormRow :=
  rows.filterMap (fun r => (normalize_row r).toOption)

/-- A normalized row whose SKU carries no leading or trailing whitespace,
stated on the exact expressions the importer computes: lowering commutes
with the pre-strip of the in_bulk key, and the stored sku_lower
(sku.lower().strip()) coincides with the partition key (sku.lower()).
Rows violating this (a 255-character truncation ending in whitespace)
are mis-routed on re-import. -/
def goodRow (nr : NormRow) : Prop :=
  pyLower (pyStrip nr.sku) = pyLower nr.sku ∧
  pyStrip (pyLower nr.sku) = pyLower nr.sku

instance (nr : NormRow) : Decidable (goodRow nr) := by
  unfold goodRow; infer_instance

/-- Decidable form of goodRow at the raw-row level: a row is harmless if
it fails normalization, or normalizes to a whitespace-clean SKU. -/
def rowGoodAfterNormalize (r : RawRow) : Bool :=
  match normalize_row r with
  | .ok nr => decide (goodRow nr)
  | .error _ => true

/-! ## Helper lemmas for the webhook statistics invariant -/

/-- record_trigger preserves the counter identity. -/
theorem record_trigger_preserves (w : WebhookStats) (b : Bool)
    (h : w.successful_triggers + w.failed_triggers = w.total_triggers) :
    (record_trigger w b).successful_triggers
      + (record_trigger w b).failed_triggers
      = (record_trigger w b).total_triggers := by
  cases b <;> simp [record_trigger] <;> omega

/-- The counter identity holds after any fold of record_trigger calls from
a state satisfying it. -/
theorem record_trigger_foldl (calls : List Bool) :
    ∀ w : WebhookStats,
      w.successful_triggers + w.failed_triggers = w.total_triggers →
      ((calls.foldl record_trigger w).successful_triggers
        + (calls.foldl record_trigger w).failed_triggers
        = (calls.foldl record_trigger w).total_triggers) := by
  induction calls with
  | nil => intro w h; simpa using h
  | cons b rest ih =>
    intro w h
    exact ih (record_trigger w b) (record_trigger_preserves w b h)

/-! ## String lemmas -/

/-- dropWhile never lengthens a list. -/
theorem length_dropWhile_le (p : Char → Bool) (l : Str) :
    (l.dropWhile p).length ≤ l.length := by
  induction l with
  | nil => simp
  | cons c cs ih =>
    by_cases hc : p c
    · simp only [List.dropWhile_cons, hc, if_true]
      exact Nat.le_trans ih (Nat.le_succ _)
    · simp [List.dropWhile_cons, hc]

/-- A list unchanged by lstrip has a non-whitespace head. -/
theorem noLead_head {c : Char} {cs : Str}
    (h : pyStripL (c :: cs) = c :: cs) : isWs c = false := by
  by_contra hw
  have hw' : isWs c = true := by
    cases hx : isWs c
    · exact absurd hx hw
    · rfl
  have h1 : pyStripL (c :: cs) = pyStripL cs := by
    simp [pyStripL, List.dropWhile_cons, hw']
  have h2 : (pyStripL cs).length ≤ cs.length := length_dropWhile_le _ _
  rw [h] at h1
  have := congrArg List.length h1
  simp at this
  omega

/-- A non-whitespace head survives lstrip. -/
theorem pyStripL_cons_of_not_ws {c : Char} {cs : Str} (h : isWs c = false) :
    pyStripL (c :: cs) = c :: cs := by
  simp [pyStripL, List.dropWhile_cons, h]

/-- lstrip is idempotent. -/
theorem pyStripL_idem (l : Str) : pyStripL (pyStripL l) = pyStripL l := by
  induction l with
  | nil => rfl
  | cons c cs ih =>
    by_cases hc : isWs c
    · simp only [pyStripL, List.dropWhile_cons, hc, if_true]
      exact ih
    · have hc' : isWs c = false := by simpa using hc
      rw [pyStripL_cons_of_not_ws hc', pyStripL_cons_of_not_ws hc']

/-- rstrip preserves freedom from leading whitespace. -/
theorem pyStripL_pyStripR {l : Str} (h : pyStripL l = l) :
    pyStripL (pyStripR l) = pyStripR l := by
  cases l with
  | nil => rfl
  | cons c cs =>
    have hc : isWs c = false := noLead_head h
    have hR : pyStripR (c :: cs) = c :: pyStripR cs := by
      show (if pyStripR cs = [] ∧ isWs c then [] else c :: pyStripR cs) = _
      rw [if_neg (by simp [hc])]
    rw [hR]
    exact pyStripL_cons_of_not_ws hc

/-- rstrip of a nonempty list with a non-whitespace head is nonempty. -/
theorem pyStripR_ne_nil {l : Str} (h : pyStripL l = l) (hne : l ≠ []) :
    pyStripR l ≠ [] := by
  cases l with
  | nil => exact absurd rfl hne
  | cons c cs =>
    have hc : isWs c = false := noLead_head h
    show (if pyStripR cs = [] ∧ isWs c then [] else c :: pyStripR cs) ≠ []
    rw [if_neg (by simp [hc])]
    simp

/-- Taking a prefix preserves freedom from leading whitespace. -/
theorem pyStripL_take {l : Str} (h : pyStripL l = l) (n : Nat) :
    pyStripL (l.take n) = l.take n := by
  cases l with
  | nil => simp [pyStripL]
  | cons c cs =>
    cases n with
    | zero => simp [pyStripL]
    | succ m =>
      have hc : isWs c = false := noLead_head h
      simp only [List.take_succ_cons]
      exact pyStripL_cons_of_not_ws hc

/-- A positive-length prefix of a nonempty list is nonempty. -/
theorem take_ne_nil_of_ne_nil {l : Str} (h : l ≠ []) {n : Nat} (hn : 0 < n) :
    l.take n ≠ [] := by
  cases l with
  | nil => exact absurd rfl h
  | cons c cs => cases n with
    | zero => omega
    | succ m => simp

/-- A stripped string is free of leading whitespace. -/
theorem pyStripL_pyStrip (l : Str) : pyStripL (pyStrip l) = pyStrip l :=
  pyStripL_pyStripR (pyStripL_idem l)

/-! ## normalize_row inversion lemmas -/

/-- Every error message of normalize_row is one of its three row-level
validation messages. -/
theorem normalize_row_error_shape {r : RawRow} {e : ErrMsg}
    (h : normalize_row r = .error e) : isNormErr e = true := by
  simp only [normalize_row] at h
  repeat' split at h
  all_goals cases h <;> rfl

/-- The SKU of a successfully normalized row is a 255-character prefix of
a nonempty stripped string. -/
theorem normalize_row_ok_sku {r : RawRow} {nr : NormRow}
    (h : normalize_row r = .ok nr) :
    ∃ sv, pyStrip sv ≠ [] ∧ nr.sku = pyTake 255 (pyStrip sv) := by
  simp only [normalize_row] at h
  repeat' split at h
  all_goals cases h
  all_goals exact ⟨_, by assumption, rfl⟩

/-- The SKU of a successfully normalized row does not strip to empty. -/
theorem normalize_ok_sku_ne_nil {r : RawRow} {nr : NormRow}
    (h : normalize_row r = .ok nr) : pyStrip nr.sku ≠ [] := by
  obtain ⟨sv, hsv, hsku⟩ := normalize_row_ok_sku h
  rw [hsku]
  have h1 : pyStripL (pyStrip sv) = pyStrip sv := pyStripL_pyStrip sv
  have h2 : pyStripL ((pyStrip sv).take 255) = (pyStrip sv).take 255 :=
    pyStripL_take h1 255
  have h3 : (pyStrip sv).take 255 ≠ [] :=
    take_ne_nil_of_ne_nil hsv (by norm_num)
  show pyStripR (pyStripL (pyTake 255 (pyStrip sv))) ≠ []
  simp only [pyTake] at h2 ⊢
  rw [h2]
  exact pyStripR_ne_nil h2 h3

/-! ## Chunk-splitting lemmas -/

/-- chunksOfAux does not depend on the fuel as long as it dominates the
list length. -/
theorem chunksOfAux_fuel (f1 : Nat) :
    ∀ (f2 : Nat) (l : List RawRow), l.length ≤ f1 → l.length ≤ f2 →
      chunksOfAux f1 l = chunksOfAux f2 l := by
  have hC : CHUNK_SIZE = 1000 := rfl
  induction f1 with
  | zero =>
    intro f2 l h1 _
    have hl : l = [] := List.eq_nil_of_length_eq_zero (Nat.le_zero.mp h1)
    subst hl
    cases f2 <;> rfl
  | succ f ih =>
    intro f2 l h1 h2
    cases l with
    | nil => cases f2 <;> rfl
    | cons x xs =>
      cases f2 with
      | zero => simp at h2
      | succ f2' =>
        show List.take CHUNK_SIZE (x :: xs) :: _ = List.take CHUNK_SIZE (x :: xs) :: _
        congr 1
        apply ih
        · have := List.length_drop CHUNK_SIZE (x :: xs)
          simp at h1 ⊢
          omega
        · have := List.length_drop CHUNK_SIZE (x :: xs)
          simp at h2 ⊢
          omega

/-- Unfolding equation for chunksOf on a nonempty list. -/
theorem chunksOf_cons {l : List RawRow} (h : l ≠ []) :
    chunksOf l = l.take CHUNK_SIZE :: chunksOf (l.drop CHUNK_SIZE) := by
  cases l with
  | nil => exact absurd rfl h
  | cons x xs =>
    show chunksOfAux (xs.length + 1) (x :: xs) = _
    show List.take CHUNK_SIZE (x :: xs) :: _ = List.take CHUNK_SIZE (x :: xs) :: _
    congr 1
    apply chunksOfAux_fuel
    · have hC : CHUNK_SIZE = 1000 := rfl
      simp only [List.length_drop, List.length_cons]
      omega
    · exact Nat.le_refl _

/-- The chunks of a list concatenate back to the list. -/
theorem chunksOf_flatten (l : List RawRow) : (chunksOf l).flatten = l := by
  by_cases h : l = []
  · subst h; rfl
  · rw [chunksOf_cons h]
    have ih := chunksOf_flatten (l.drop CHUNK_SIZE)
    simp only [List.flatten_cons, ih]
    exact List.take_append_drop _ _
termination_by l.length
decreasing_by
  simp only [List.length_drop]
  have : 0 < CHUNK_SIZE := by norm_num [CHUNK_SIZE]
  have hl : 0 < l.length := List.length_pos.mpr h
  omega

/-- A member of a chunk is a member of the original list. -/
theorem mem_of_mem_chunksOf {l c : List RawRow} {x : RawRow}
    (hc : c ∈ chunksOf l) (hx : x ∈ c) : x ∈ l := by
  rw [← chunksOf_flatten l]
  exact List.mem_flatten.mpr ⟨c, hc, hx⟩

/-- The chunk lengths of a list sum to its length. -/
theorem chunksOf_length_sum (l : List RawRow) :
    ((chunksOf l).map List.length).sum = l.length := by
  rw [← List.length_flatten, chunksOf_flatten]

/-- filterMap distributes over flatten. -/
theorem filterMap_flatten {α β : Type} (f : α → Option β) :
    ∀ L : List (List α),
      L.flatten.filterMap f = (L.map (List.filterMap f)).flatten := by
  intro L
  induction L with
  | nil => rfl
  | cons c cs ih =>
    simp [List.filterMap_append, ih]

/-- chunkOk distributes over append. -/
theorem chunkOk_append (a b : List RawRow) :
    chunkOk (a ++ b) = chunkOk a ++ chunkOk b :=
  List.filterMap_append a b _

/-- The per-chunk counts of successfully normalized rows sum to the
file-level count. -/
theorem chunksOf_chunkOk_sum (l : List RawRow) :
    ((chunksOf l).map (fun c => (chunkOk c).length)).sum
      = (chunkOk l).length := by
  have key : ∀ L : List (List RawRow),
      (L.map (fun c => (chunkOk c).length)).sum = (chunkOk L.flatten).length := by
    intro L
    induction L with
    | nil => rfl
    | cons c cs ih =>
      simp only [List.map_cons, List.sum_cons, List.flatten_cons, ih,
        chunkOk_append, List.length_append]
  rw [key, chunksOf_flatten]

/-! ## Stage lemmas for process_chunk -/

/-- Behaviour of the normalization loop: it emits exactly the
successfully normalized rows, leaves the table and all counters except
errors and skipped untouched, bumps errors and skipped once per failing
row, and appends only normalization-shaped error entries to the job. -/
theorem normalizeAux_spec (rows : List RawRow) :
    ∀ (st : ImporterState) (idx : Nat),
      (normalizeAux st idx rows).2 = chunkOk rows ∧
      (normalizeAux st idx rows).1.table = st.table ∧
      (normalizeAux st idx rows).1.stats.processed = st.stats.processed ∧
      (normalizeAux st idx rows).1.stats.total = st.stats.total ∧
      (normalizeAux st idx rows).1.stats.created = st.stats.created ∧
      (normalizeAux st idx rows).1.stats.updated = st.stats.updated ∧
      (chunkOk rows).length ≤ rows.length ∧
      (normalizeAux st idx rows).1.stats.errors
        = st.stats.errors + (rows.length - (chunkOk rows).length) ∧
      (normalizeAux st idx rows).1.stats.skipped
        = st.stats.skipped + (rows.length - (chunkOk rows).length) ∧
      (∃ es, (normalizeAux st idx rows).1.job.error_details
          = st.job.error_details ++ es ∧
        ∀ e ∈ es, isNormErr e.msg = true) ∧
      (normalizeAux st idx rows).1.job.status = st.job.status ∧
      (normalizeAux st idx rows).1.job.updated_count = st.job.updated_count ∧
      (normalizeAux st idx rows).1.job.created_count = st.job.created_count ∧
      (normalizeAux st idx rows).1.job.total_rows = st.job.total_rows := by
  induction rows with
  | nil =>
    intro st idx
    refine ⟨rfl, rfl, rfl, rfl, rfl, rfl, by simp [chunkOk], rfl, rfl,
      ⟨[], by simp [normalizeAux], by simp⟩, rfl, rfl, rfl, rfl⟩
  | cons r rs ih =>
    intro st idx
    cases hr : normalize_row r with
    | ok nr =>
      obtain ⟨h1, h2, h3, h4, h5, h6, h7, h8, h9, ⟨es, hes, hshape⟩,
        h11, h12, h13, h14⟩ := ih st (idx + 1)
      have hunf : normalizeAux st idx (r :: rs)
          = ((normalizeAux st (idx + 1) rs).1,
             nr :: (normalizeAux st (idx + 1) rs).2) := by
        simp [normalizeAux, hr]
      have hok : chunkOk (r :: rs) = nr :: chunkOk rs := by
        simp [chunkOk, List.filterMap_cons, hr, Except.toOption]
      rw [hunf, hok]
      refine ⟨by simp [h1], h2, h3, h4, h5, h6, by simpa using h7,
        ?_, ?_, ⟨es, hes, hshape⟩, h11, h12, h13, h14⟩
      · simp only [List.length_cons]
        omega
      · simp only [List.length_cons]
        omega
    | error e =>
      have hshape0 : isNormErr e = true := normalize_row_error_shape hr
      obtain ⟨h1, h2, h3, h4, h5, h6, h7, h8, h9, ⟨es, hes, hshape⟩,
        h11, h12, h13, h14⟩ :=
        ih { st with
              stats := { st.stats with errors := st.stats.errors + 1,
                                       skipped := st.stats.skipped + 1 },
              job := st.job.add_error (st.stats.processed + idx + 1) e }
          (idx + 1)
      have hunf : normalizeAux st idx (r :: rs)
          = normalizeAux
              { st with
                stats := { st.stats with errors := st.stats.errors + 1,
                                         skipped := st.stats.skipped + 1 },
                job := st.job.add_error (st.stats.processed + idx + 1) e }
              (idx + 1) rs := by
        simp [normalizeAux, hr]
      have hok : chunkOk (r :: rs) = chunkOk rs := by
        simp [chunkOk, List.filterMap_cons, hr, Except.toOption]
      rw [hunf, hok]
      refine ⟨h1, h2, h3, h4, h5, h6, ?_, ?_, ?_, ?_, h11, h12, h13, h14⟩
      · exact Nat.le_trans h7 (Nat.le_succ _)
      · rw [h8]
        simp only [UploadJob.add_error, List.length_cons]
        omega
      · rw [h9]
        simp only [List.length_cons]
        omega
      · refine ⟨⟨st.stats.processed + idx + 1, e⟩ :: es, ?_, ?_⟩
        · rw [hes]
          simp [UploadJob.add_error]
        · intro x hx
          rcases List.mem_cons.mp hx with hx | hx
          · subst hx; exact hshape0
          · exact hshape x hx

/-- When every row's SKU survives stripping (always the case for
normalize_row output), the validity filter keeps everything, collects
the lowered stripped SKUs, and leaves the state untouched. -/
theorem validAux_all (nrs : List NormRow) :
    ∀ st : ImporterState, (∀ nr ∈ nrs, pyStrip nr.sku ≠ []) →
      validAux st nrs
        = (st, nrs.map (fun nr => pyLower (pyStrip nr.sku)), nrs) := by
  induction nrs with
  | nil => intro st _; rfl
  | cons nr rest ih =>
    intro st h
    have hh : pyStrip nr.sku ≠ [] := h nr (by simp)
    have ht := ih st (fun x hx => h x (by simp [hx]))
    simp [validAux, hh, ht]

/-- Rows produced by chunkOk always have SKUs that survive stripping. -/
theorem chunkOk_sku_ne_nil {rows : List RawRow} {nr : NormRow}
    (h : nr ∈ chunkOk rows) : pyStrip nr.sku ≠ [] := by
  obtain ⟨r, _, hr⟩ := List.mem_filterMap.mp h
  cases hnr : normalize_row r with
  | ok nr2 =>
    have : nr2 = nr := by
      rw [hnr] at hr
      simpa [Except.toOption] using hr
    subst this
    exact normalize_ok_sku_ne_nil hnr
  | error e =>
    rw [hnr] at hr
    simp [Except.toOption] at hr

/-- Pointwise-equal functions give equal maps. -/
theorem map_congr_mem {α β : Type} {f g : α → β} :
    ∀ l : List α, (∀ x ∈ l, f x = g x) → l.map f = l.map g := by
  intro l
  induction l with
  | nil => intro _; rfl
  | cons x xs ih =>
    intro h
    simp only [List.map_cons, h x (by simp), ih (fun y hy => h y (by simp [hy]))]

/-- Key presence distributes over table append. -/
theorem keyPresent_append (t l : List Product) (k : Str) :
    keyPresent (t ++ l) k = (keyPresent t k || keyPresent l k) := by
  unfold keyPresent findBySkuLower
  rw [List.find?_append]
  cases List.find? (fun p => p.sku_lower == k) t <;> simp [Option.or]

/-- A key is present exactly when it occurs among the sku_lower column. -/
theorem keyPresent_iff {t : List Product} {k : Str} :
    keyPresent t k = true ↔ k ∈ t.map (fun p => p.sku_lower) := by
  unfold keyPresent findBySkuLower
  rw [List.find?_isSome]
  constructor
  · rintro ⟨p, hp, hbeq⟩
    exact List.mem_map.mpr ⟨p, hp, eq_of_beq hbeq⟩
  · intro h
    obtain ⟨p, hp, hk⟩ := List.mem_map.mp h
    exact ⟨p, hp, by simp [hk]⟩

/-- A singleton table holds its own key. -/
theorem keyPresent_self (p : Product) : keyPresent [p] p.sku_lower = true := by
  simp [keyPresent, findBySkuLower]

/-- Elements of a dictSetNR result are old entries or the new binding. -/
theorem dictSetNR_mem {d : List (Str × NormRow)} {k : Str} {nr : NormRow}
    {e : Str × NormRow} (h : e ∈ dictSetNR d k nr) :
    e ∈ d ∨ e = (k, nr) := by
  unfold dictSetNR at h
  split at h
  · obtain ⟨x, hx, hxe⟩ := List.mem_map.mp h
    by_cases hk : x.1 == k
    · right
      rw [← hxe]
      simp [hk]
    · left
      rw [← hxe]
      simp only [hk, if_false]
      exact hx
  · rcases List.mem_append.mp h with h | h
    · exact Or.inl h
    · right
      simpa using h

/-- The partition loop adds one element to the create or the update list
per row. -/
theorem partitionAux_counts (table : List Product) (sl : List Str)
    (vr : List NormRow) :
    ∀ acc, (partitionAux table sl acc vr).1.length
        + (partitionAux table sl acc vr).2.1.length
      = acc.1.length + acc.2.1.length + vr.length := by
  induction vr with
  | nil => intro acc; simp [partitionAux]
  | cons nr rest ih =>
    intro acc
    cases hc : sl.contains (pyLower nr.sku) with
    | true =>
      cases hf : findBySkuLower table (pyLower nr.sku) with
      | some p =>
        simp only [partitionAux, hc, if_true, hf]
        rw [ih]
        simp
        omega
      | none =>
        simp only [partitionAux, hc, if_true, hf]
        rw [ih]
        simp
        omega
    | false =>
      simp only [partitionAux, hc, Bool.false_eq_true, if_false]
      rw [ih]
      simp
      omega

/-- Accumulated create-set elements survive the partition loop. -/
theorem partitionAux_mono (table : List Product) (sl : List Str)
    (vr : List NormRow) :
    ∀ acc x, x ∈ acc.1 → x ∈ (partitionAux table sl acc vr).1 := by
  induction vr with
  | nil => intro acc x hx; simpa [partitionAux] using hx
  | cons nr rest ih =>
    intro acc x hx
    cases hc : sl.contains (pyLower nr.sku) with
    | true =>
      cases hf : findBySkuLower table (pyLower nr.sku) with
      | some p =>
        simp only [partitionAux, hc, if_true, hf]
        exact ih _ x hx
      | none =>
        simp only [partitionAux, hc, if_true, hf]
        exact ih _ x (by simp [hx])
    | false =>
      simp only [partitionAux, hc, Bool.false_eq_true, if_false]
      exact ih _ x (by simp [hx])

/-- Every create-set element is an accumulated one or arises from a row. -/
theorem partitionAux_creates_mem (table : List Product) (sl : List Str)
    (vr : List NormRow) :
    ∀ acc p, p ∈ (partitionAux table sl acc vr).1 →
      p ∈ acc.1 ∨ ∃ nr ∈ vr, p = mkCreateProduct nr := by
  induction vr with
  | nil =>
    intro acc p hp
    exact Or.inl (by simpa [partitionAux] using hp)
  | cons nr rest ih =>
    intro acc p hp
    cases hc : sl.contains (pyLower nr.sku) with
    | true =>
      cases hf : findBySkuLower table (pyLower nr.sku) with
      | some q =>
        simp only [partitionAux, hc, if_true, hf] at hp
        rcases ih _ p hp with h | ⟨nr2, hnr2, hpe⟩
        · exact Or.inl h
        · exact Or.inr ⟨nr2, by simp [hnr2], hpe⟩
      | none =>
        simp only [partitionAux, hc, if_true, hf] at hp
        rcases ih _ p hp with h | ⟨nr2, hnr2, hpe⟩
        · rcases List.mem_append.mp h with h | h
          · exact Or.inl h
          · exact Or.inr ⟨nr, by simp, by simpa using h⟩
        · exact Or.inr ⟨nr2, by simp [hnr2], hpe⟩
    | false =>
      simp only [partitionAux, hc, Bool.false_eq_true, if_false] at hp
      rcases ih _ p hp with h | ⟨nr2, hnr2, hpe⟩
      · rcases List.mem_append.mp h with h | h
        · exact Or.inl h
        · exact Or.inr ⟨nr, by simp, by simpa using h⟩
      · exact Or.inr ⟨nr2, by simp [hnr2], hpe⟩

/-- Every pending-update entry is accumulated or keyed by its row. -/
theorem partitionAux_updmap_mem (table : List Product) (sl : List Str)
    (vr : List NormRow) :
    ∀ acc e, e ∈ (partitionAux table sl acc vr).2.2 →
      e ∈ acc.2.2 ∨ ∃ nr ∈ vr, e = (pyLower nr.sku, nr) := by
  induction vr with
  | nil =>
    intro acc e he
    exact Or.inl (by simpa [partitionAux] using he)
  | cons nr rest ih =>
    intro acc e he
    cases hc : sl.contains (pyLower nr.sku) with
    | true =>
      cases hf : findBySkuLower table (pyLower nr.sku) with
      | some q =>
        simp only [partitionAux, hc, if_true, hf] at he
        rcases ih _ e he with h | ⟨nr2, hnr2, hee⟩
        · rcases dictSetNR_mem h with h | h
          · exact Or.inl h
          · exact Or.inr ⟨nr, by simp, h⟩
        · exact Or.inr ⟨nr2, by simp [hnr2], hee⟩
      | none =>
        simp only [partitionAux, hc, if_true, hf] at he
        rcases ih _ e he with h | ⟨nr2, hnr2, hee⟩
        · exact Or.inl h
        · exact Or.inr ⟨nr2, by simp [hnr2], hee⟩
    | false =>
      simp only [partitionAux, hc, Bool.false_eq_true, if_false] at he
      rcases ih _ e he with h | ⟨nr2, hnr2, hee⟩
      · exact Or.inl h
      · exact Or.inr ⟨nr2, by simp [hnr2], hee⟩

/-- Every row is either routed to update (its key is in skus_lower and in
the table) or contributes its product to the create set. -/
theorem partitionAux_cover (table : List Product) (sl : List Str)
    (vr : List NormRow) :
    ∀ acc nr, nr ∈ vr →
      (sl.contains (pyLower nr.sku) = true ∧
        keyPresent table (pyLower nr.sku) = true) ∨
      mkCreateProduct nr ∈ (partitionAux table sl acc vr).1 := by
  induction vr with
  | nil => intro acc nr h; simp at h
  | cons nr0 rest ih =>
    intro acc nr h
    rcases List.mem_cons.mp h with h | h
    · subst h
      cases hc : sl.contains (pyLower nr.sku) with
      | true =>
        cases hf : findBySkuLower table (pyLower nr.sku) with
        | some p =>
          exact Or.inl ⟨rfl, by simp [keyPresent, hf]⟩
        | none =>
          right
          simp only [partitionAux, hc, if_true, hf]
          exact partitionAux_mono table sl rest _ _ (by simp)
      | false =>
        right
        simp only [partitionAux, hc, Bool.false_eq_true, if_false]
        exact partitionAux_mono table sl rest _ _ (by simp)
    · cases hc : sl.contains (pyLower nr0.sku) with
      | true =>
        cases hf : findBySkuLower table (pyLower nr0.sku) with
        | some p =>
          simp only [partitionAux, hc, if_true, hf]
          exact ih _ nr h
        | none =>
          simp only [partitionAux, hc, if_true, hf]
          exact ih _ nr h
      | false =>
        simp only [partitionAux, hc, Bool.false_eq_true, if_false]
        exact ih _ nr h

/-- When every row is routed to update, the create set stays as
accumulated and the update list grows by one entry per row. -/
theorem partitionAux_allhit (table : List Product) (sl : List Str)
    (vr : List NormRow)
    (h : ∀ nr ∈ vr, sl.contains (pyLower nr.sku) = true ∧
        keyPresent table (pyLower nr.sku) = true) :
    ∀ acc, (partitionAux table sl acc vr).1 = acc.1 ∧
      (partitionAux table sl acc vr).2.1.length
        = acc.2.1.length + vr.length := by
  induction vr with
  | nil => intro acc; simp [partitionAux]
  | cons nr rest ih =>
    intro acc
    obtain ⟨hc, hk⟩ := h nr (by simp)
    obtain ⟨p, hp⟩ := Option.isSome_iff_exists.mp hk
    have ih2 := ih (fun x hx => h x (by simp [hx]))
    simp only [partitionAux, hc, if_true, hp]
    obtain ⟨ha, hb⟩ := ih2 (acc.1, acc.2.1 ++ [pyLower nr.sku],
      dictSetNR acc.2.2 (pyLower nr.sku) nr)
    refine ⟨ha, ?_⟩
    rw [hb]
    simp
    omega

/-- bulk_create with ignore_conflicts appends a subset of its input and
reports exactly the number appended. -/
theorem bulkCreateIgnore_shape (ps : List Product) :
    ∀ t, ∃ new, (bulkCreateIgnore t ps).1 = t ++ new ∧
      (bulkCreateIgnore t ps).2 = new.length ∧ ∀ q ∈ new, q ∈ ps := by
  induction ps with
  | nil =>
    intro t
    exact ⟨[], by simp [bulkCreateIgnore], rfl, by simp⟩
  | cons p rest ih =>
    intro t
    cases hk : keyPresent t p.sku_lower with
    | true =>
      obtain ⟨new, h1, h2, h3⟩ := ih t
      exact ⟨new, by simp [bulkCreateIgnore, hk, h1],
        by simp [bulkCreateIgnore, hk, h2],
        fun q hq => by simp [h3 q hq]⟩
    | false =>
      obtain ⟨new, h1, h2, h3⟩ := ih (t ++ [p])
      refine ⟨p :: new, ?_, ?_, ?_⟩
      · simp only [bulkCreateIgnore, hk, Bool.false_eq_true, if_false, h1]
        simp
      · simp [bulkCreateIgnore, hk, h2]
      · intro q hq
        rcases List.mem_cons.mp hq with hq | hq
        · simp [hq]
        · simp [h3 q hq]

/-- The created count never exceeds the attempted count. -/
theorem bulkCreateIgnore_le (ps : List Product) :
    ∀ t, (bulkCreateIgnore t ps).2 ≤ ps.length := by
  induction ps with
  | nil => intro t; simp [bulkCreateIgnore]
  | cons p rest ih =>
    intro t
    cases hk : keyPresent t p.sku_lower with
    | true =>
      simp only [bulkCreateIgnore, hk, if_true]
      exact Nat.le_trans (ih t) (Nat.le_succ _)
    | false =>
      simp only [bulkCreateIgnore, hk, Bool.false_eq_true, if_false,
        List.length_cons]
      exact Nat.succ_le_succ (ih (t ++ [p]))

/-- Keys present before bulk_create remain present after it. -/
theorem bulkCreateIgnore_mono {ps : List Product} {t : List Product}
    {k : Str} (h : keyPresent t k = true) :
    keyPresent (bulkCreateIgnore t ps).1 k = true := by
  obtain ⟨new, h1, _, _⟩ := bulkCreateIgnore_shape ps t
  rw [h1, keyPresent_append, h]
  rfl

/-- After bulk_create with ignore_conflicts, the key of every attempted
product is present (it was inserted or it conflicted with a present
row). -/
theorem bulkCreateIgnore_covers (ps : List Product) :
    ∀ t p, p ∈ ps → keyPresent (bulkCreateIgnore t ps).1 p.sku_lower = true := by
  induction ps with
  | nil => intro t p hp; simp at hp
  | cons q rest ih =>
    intro t p hp
    rcases List.mem_cons.mp hp with hp | hp
    · subst hp
      cases hk : keyPresent t p.sku_lower with
      | true =>
        simp only [bulkCreateIgnore, hk, if_true]
        exact bulkCreateIgnore_mono hk
      | false =>
        simp only [bulkCreateIgnore, hk, Bool.false_eq_true, if_false]
        apply bulkCreateIgnore_mono
        rw [keyPresent_append, keyPresent_self]
        simp
    · cases hk : keyPresent t q.sku_lower with
      | true =>
        simp only [bulkCreateIgnore, hk, if_true]
        exact ih t p hp
      | false =>
        simp only [bulkCreateIgnore, hk, Bool.false_eq_true, if_false]
        exact ih (t ++ [q]) p hp

/-- When every pending update writes back the sku_lower it was fetched
under, bulk_update leaves the table's key column unchanged. -/
theorem applyUpdates_keys (um : List (Str × NormRow)) :
    ∀ t, (∀ e ∈ um, pyStrip (pyLower e.2.sku) = e.1) →
      (applyUpdates t um).map (fun p => p.sku_lower)
        = t.map (fun p => p.sku_lower) := by
  induction um with
  | nil => intro t _; rfl
  | cons e rest ih =>
    obtain ⟨k, nr⟩ := e
    intro t h
    have hk : pyStrip (pyLower nr.sku) = k := h (k, nr) (by simp)
    show (applyUpdates (t.map _) rest).map _ = _
    rw [ih _ (fun x hx => h x (by simp [hx]))]
    rw [List.map_map]
    apply map_congr_mem
    intro q _
    by_cases hqk : q.sku_lower == k
    · simp only [Function.comp, hqk, if_true]
      rw [hk]
      exact (eq_of_beq hqk).symm
    · simp [Function.comp, hqk]

/-- The fallback loop appends a subset of the create set to the table,
never touches the update counters, and appends only error entries naming
a create-set SKU. -/
theorem fallbackCreates_spec (ps : List Product) :
    ∀ st : ImporterState, ∃ new,
      (fallbackCreates st ps).table = st.table ++ new ∧
      (∀ q ∈ new, q ∈ ps) ∧
      (fallbackCreates st ps).stats.updated = st.stats.updated ∧
      (fallbackCreates st ps).stats.processed = st.stats.processed ∧
      (fallbackCreates st ps).stats.total = st.stats.total ∧
      (fallbackCreates st ps).job.updated_count = st.job.updated_count ∧
      (fallbackCreates st ps).job.status = st.job.status ∧
      (fallbackCreates st ps).job.total_rows = st.job.total_rows ∧
      (∃ es, (fallbackCreates st ps).job.error_details
          = st.job.error_details ++ es ∧
        ∀ e ∈ es, ∃ p ∈ ps, e.msg = ErrMsg.bulkRowFailed p.sku) := by
  induction ps with
  | nil =>
    intro st
    exact ⟨[], by simp [fallbackCreates], by simp, rfl, rfl, rfl, rfl, rfl,
      rfl, ⟨[], by simp [fallbackCreates], by simp⟩⟩
  | cons p rest ih =>
    intro st
    cases hk : keyPresent st.table p.sku_lower with
    | true =>
      obtain ⟨new, h1, h2, h3, h4, h5, h6, h7, h8, ⟨es, hes, hshape⟩⟩ :=
        ih { st with
          stats := { st.stats with errors := st.stats.errors + 1,
                                   skipped := st.stats.skipped + 1 },
          job := st.job.add_error st.stats.processed (.bulkRowFailed p.sku) }
      refine ⟨new, ?_, fun q hq => by simp [h2 q hq], ?_, ?_, ?_, ?_, ?_, ?_,
        ⟨⟨st.stats.processed, .bulkRowFailed p.sku⟩ :: es, ?_, ?_⟩⟩
      · simp only [fallbackCreates, hk, if_true]
        exact h1
      · simp only [fallbackCreates, hk, if_true]
        exact h3
      · simp only [fallbackCreates, hk, if_true]
        exact h4
      · simp only [fallbackCreates, hk, if_true]
        exact h5
      · simp only [fallbackCreates, hk, if_true]
        exact h6
      · simp only [fallbackCreates, hk, if_true]
        exact h7
      · simp only [fallbackCreates, hk, if_true]
        exact h8
      · simp only [fallbackCreates, hk, if_true]
        rw [hes]
        simp [UploadJob.add_error]
      · intro e he
        rcases List.mem_cons.mp he with he | he
        · exact ⟨p, by simp, by simp [he]⟩
        · obtain ⟨q, hq, hqe⟩ := hshape e he
          exact ⟨q, by simp [hq], hqe⟩
    | false =>
      obtain ⟨new, h1, h2, h3, h4, h5, h6, h7, h8, ⟨es, hes, hshape⟩⟩ :=
        ih { st with table := st.table ++ [p],
                     stats := { st.stats with created := st.stats.created + 1 } }
      refine ⟨p :: new, ?_, ?_, ?_, ?_, ?_, ?_, ?_, ?_, ⟨es, ?_, ?_⟩⟩
      · simp only [fallbackCreates, hk, Bool.false_eq_true, if_false]
        rw [h1]
        simp
      · intro q hq
        rcases List.mem_cons.mp hq with hq | hq
        · simp [hq]
        · simp [h2 q hq]
      · simp only [fallbackCreates, hk, Bool.false_eq_true, if_false]
        exact h3
      · simp only [fallbackCreates, hk, Bool.false_eq_true, if_false]
        exact h4
      · simp only [fallbackCreates, hk, Bool.false_eq_true, if_false]
        exact h5
      · simp only [fallbackCreates, hk, Bool.false_eq_true, if_false]
        exact h6
      · simp only [fallbackCreates, hk, Bool.false_eq_true, if_false]
        exact h7
      · simp only [fallbackCreates, hk, Bool.false_eq_true, if_false]
        exact h8
      · simp only [fallbackCreates, hk, Bool.false_eq_true, if_false]
        exact hes
      · intro e he
        obtain ⟨q, hq, hqe⟩ := hshape e he
        exact ⟨q, by simp [hq], hqe⟩

/-- After the fallback loop, the key of every attempted product is
present. -/
theorem fallbackCreates_covers (ps : List Product) :
    ∀ st p, p ∈ ps →
      keyPresent (fallbackCreates st ps).table p.sku_lower = true := by
  induction ps with
  | nil => intro st p hp; simp at hp
  | cons q rest ih =>
    intro st p hp
    have mono : ∀ (st2 : ImporterState) (k : Str),
        keyPresent st2.table k = true →
        keyPresent (fallbackCreates st2 rest).table k = true := by
      intro st2 k hk
      obtain ⟨new, h1, _⟩ := fallbackCreates_spec rest st2
      rw [h1, keyPresent_append, hk]
      rfl
    rcases List.mem_cons.mp hp with hp | hp
    · subst hp
      cases hk : keyPresent st.table p.sku_lower with
      | true =>
        simp only [fallbackCreates, hk, if_true]
        exact mono _ _ hk
      | false =>
        simp only [fallbackCreates, hk, Bool.false_eq_true, if_false]
        apply mono
        show keyPresent (st.table ++ [p]) p.sku_lower = true
        rw [keyPresent_append, keyPresent_self]
        simp
    · cases hk : keyPresent st.table q.sku_lower with
      | true =>
        simp only [fallbackCreates, hk, if_true]
        exact ih _ p hp
      | false =>
        simp only [fallbackCreates, hk, Bool.false_eq_true, if_false]
        exact ih _ p hp

/-! ## process_chunk accounting -/

/-- Projection equations for the success path. -/
theorem chunkSuccess_created (st2 : ImporterState)
    (parts : List Product × List Str × List (Str × NormRow)) :
    (chunkSuccess st2 parts).stats.created
      = st2.stats.created + (bulkCreateIgnore st2.table parts.1).2 := rfl

/-- Updated counter of the success path. -/
theorem chunkSuccess_updated (st2 : ImporterState)
    (parts : List Product × List Str × List (Str × NormRow)) :
    (chunkSuccess st2 parts).stats.updated
      = st2.stats.updated + parts.2.1.length := rfl

/-- Skipped counter of the success path. -/
theorem chunkSuccess_skipped (st2 : ImporterState)
    (parts : List Product × List Str × List (Str × NormRow)) :
    (chunkSuccess st2 parts).stats.skipped
      = st2.stats.skipped
        + (parts.1.length - (bulkCreateIgnore st2.table parts.1).2) := rfl

/-- Processed counter is untouched by the success path. -/
theorem chunkSuccess_processed (st2 : ImporterState)
    (parts : List Product × List Str × List (Str × NormRow)) :
    (chunkSuccess st2 parts).stats.processed = st2.stats.processed := rfl

/-- Total counter is untouched by the success path. -/
theorem chunkSuccess_total (st2 : ImporterState)
    (parts : List Product × List Str × List (Str × NormRow)) :
    (chunkSuccess st2 parts).stats.total = st2.stats.total := rfl

/-- Errors counter is untouched by the success path. -/
theorem chunkSuccess_errors (st2 : ImporterState)
    (parts : List Product × List Str × List (Str × NormRow)) :
    (chunkSuccess st2 parts).stats.errors = st2.stats.errors := rfl

/-- The job ledger is untouched by the success path. -/
theorem chunkSuccess_job (st2 : ImporterState)
    (parts : List Product × List Str × List (Str × NormRow)) :
    (chunkSuccess st2 parts).job = st2.job := rfl

/-- Table of the success path. -/
theorem chunkSuccess_table (st2 : ImporterState)
    (parts : List Product × List Str × List (Str × NormRow)) :
    (chunkSuccess st2 parts).table
      = applyUpdates (bulkCreateIgnore st2.table parts.1).1 parts.2.2 := rfl

/-- With skip_duplicates on (the default), one chunk adds exactly its row
count to created + updated + skipped, leaves processed and the totals
untouched, and raises skipped at least as much as errors. -/
theorem process_chunk_accounting (st : ImporterState) (rows : List RawRow) :
    (process_chunk true st rows).stats.created
        + (process_chunk true st rows).stats.updated
        + (process_chunk true st rows).stats.skipped
      = st.stats.created + st.stats.updated + st.stats.skipped
        + rows.length ∧
    (process_chunk true st rows).stats.processed = st.stats.processed ∧
    (process_chunk true st rows).stats.total = st.stats.total ∧
    (process_chunk true st rows).job.total_rows = st.job.total_rows ∧
    ∃ de ds,
      (process_chunk true st rows).stats.errors = st.stats.errors + de ∧
      (process_chunk true st rows).stats.skipped = st.stats.skipped + ds ∧
      de ≤ ds := by
  obtain ⟨n2, ntab, nproc, ntot, ncre, nupd, nlen, nerr, nskip, _, _, _, _,
    njtot⟩ := normalizeAux_spec rows st 0
  have hval := validAux_all (chunkOk rows) (normalizeAux st 0 rows).1
    (fun nr h => chunkOk_sku_ne_nil h)
  by_cases hempty : chunkOk rows = []
  · have hpc : process_chunk true st rows = (normalizeAux st 0 rows).1 := by
      unfold process_chunk
      rw [n2, hval]
      simp [hempty]
    rw [hpc]
    have hlen0 : (chunkOk rows).length = 0 := by simp [hempty]
    refine ⟨?_, nproc, ntot, njtot, rows.length, rows.length, ?_, ?_,
      le_refl _⟩
    · rw [ncre, nupd, nskip, hlen0]
      omega
    · rw [nerr, hlen0]
      omega
    · rw [nskip, hlen0]
      omega
  · have hpc : process_chunk true st rows
        = chunkSuccess (normalizeAux st 0 rows).1
            (partitionAux (normalizeAux st 0 rows).1.table
              ((chunkOk rows).map (fun nr => pyLower (pyStrip nr.sku)))
              ([], [], []) (chunkOk rows)) := by
      unfold process_chunk chunkApply
      rw [n2, hval]
      simp [hempty]
    rw [hpc]
    have hcnt := partitionAux_counts (normalizeAux st 0 rows).1.table
      ((chunkOk rows).map (fun nr => pyLower (pyStrip nr.sku)))
      (chunkOk rows) ([], [], [])
    have hble := bulkCreateIgnore_le
      (partitionAux (normalizeAux st 0 rows).1.table
        ((chunkOk rows).map (fun nr => pyLower (pyStrip nr.sku)))
        ([], [], []) (chunkOk rows)).1
      (normalizeAux st 0 rows).1.table
    simp only [List.length_nil] at hcnt
    rw [chunkSuccess_created, chunkSuccess_updated, chunkSuccess_skipped,
      chunkSuccess_processed, chunkSuccess_total, chunkSuccess_errors,
      chunkSuccess_job]
    rw [ncre, nupd, nskip, nerr]
    refine ⟨by omega, nproc, ntot, njtot,
      rows.length - (chunkOk rows).length,
      rows.length - (chunkOk rows).length
        + ((partitionAux (normalizeAux st 0 rows).1.table
            ((chunkOk rows).map (fun nr => pyLower (pyStrip nr.sku)))
            ([], [], []) (chunkOk rows)).1.length
          - (bulkCreateIgnore (normalizeAux st 0 rows).1.table
              (partitionAux (normalizeAux st 0 rows).1.table
                ((chunkOk rows).map (fun nr => pyLower (pyStrip nr.sku)))
                ([], [], []) (chunkOk rows)).1).2),
      rfl, by omega, by omega⟩

/-- update_progress leaves the in-memory stats unchanged. -/
theorem update_progress_stats (s : ImporterState) :
    (update_progress s).stats = s.stats := rfl

/-- update_progress leaves the table unchanged. -/
theorem update_progress_table (s : ImporterState) :
    (update_progress s).table = s.table := rfl

/-- update_progress leaves total_rows unchanged. -/
theorem update_progress_total_rows (s : ImporterState) :
    (update_progress s).job.total_rows = s.job.total_rows := rfl

/-- addProcessed only changes the processed counter. -/
theorem addProcessed_processed (st : ImporterState) (n : Nat) :
    (addProcessed st n).stats.processed = st.stats.processed + n := rfl

/-- created is untouched by addProcessed. -/
theorem addProcessed_created (st : ImporterState) (n : Nat) :
    (addProcessed st n).stats.created = st.stats.created := rfl

/-- updated is untouched by addProcessed. -/
theorem addProcessed_updated (st : ImporterState) (n : Nat) :
    (addProcessed st n).stats.updated = st.stats.updated := rfl

/-- skipped is untouched by addProcessed. -/
theorem addProcessed_skipped (st : ImporterState) (n : Nat) :
    (addProcessed st n).stats.skipped = st.stats.skipped := rfl

/-- errors is untouched by addProcessed. -/
theorem addProcessed_errors (st : ImporterState) (n : Nat) :
    (addProcessed st n).stats.errors = st.stats.errors := rfl

/-- total is untouched by addProcessed. -/
theorem addProcessed_total (st : ImporterState) (n : Nat) :
    (addProcessed st n).stats.total = st.stats.total := rfl

/-- The job is untouched by addProcessed. -/
theorem addProcessed_job (st : ImporterState) (n : Nat) :
    (addProcessed st n).job = st.job := rfl

/-- The table is untouched by addProcessed. -/
theorem addProcessed_table (st : ImporterState) (n : Nat) :
    (addProcessed st n).table = st.table := rfl

/-- The processing loop accumulates the chunk lengths into processed and
into created + updated + skipped, with errors bounded by skipped. -/
theorem importChunks_accounting (cs : List (List RawRow)) :
    ∀ st : ImporterState,
      (importChunks true st cs).stats.created
          + (importChunks true st cs).stats.updated
          + (importChunks true st cs).stats.skipped
        = st.stats.created + st.stats.updated + st.stats.skipped
          + (cs.map List.length).sum ∧
      (importChunks true st cs).stats.processed
        = st.stats.processed + (cs.map List.length).sum ∧
      (importChunks true st cs).stats.total = st.stats.total ∧
      (importChunks true st cs).job.total_rows = st.job.total_rows ∧
      ∃ de ds,
        (importChunks true st cs).stats.errors = st.stats.errors + de ∧
        (importChunks true st cs).stats.skipped = st.stats.skipped + ds ∧
        de ≤ ds := by
  induction cs with
  | nil =>
    intro st
    refine ⟨by simp [importChunks], by simp [importChunks],
      rfl, rfl, 0, 0, by simp [importChunks], by simp [importChunks],
      le_refl _⟩
  | cons c rest ih =>
    intro st
    obtain ⟨pa, pb, pc, pd, de1, ds1, pe, pf, pg⟩ :=
      process_chunk_accounting (addProcessed st c.length) c
    obtain ⟨ia, ib, ic, id2, de2, ds2, ie, ig, ih2⟩ :=
      ih (update_progress (process_chunk true (addProcessed st c.length) c))
    have hunf : importChunks true st (c :: rest)
        = importChunks true
            (update_progress
              (process_chunk true (addProcessed st c.length) c)) rest := by
      simp [importChunks]
    rw [hunf]
    rw [update_progress_stats] at ia ib ic ie ig
    rw [update_progress_total_rows] at id2
    rw [addProcessed_created, addProcessed_updated, addProcessed_skipped] at pa
    rw [addProcessed_processed] at pb
    rw [addProcessed_total] at pc
    rw [addProcessed_job] at pd
    rw [addProcessed_errors] at pe
    rw [addProcessed_skipped] at pf
    refine ⟨?_, ?_, ?_, ?_, de1 + de2, ds1 + ds2, ?_, ?_, by omega⟩
    · rw [ia]
      simp only [List.map_cons, List.sum_cons]
      omega
    · rw [ib, pb]
      simp only [List.map_cons, List.sum_cons]
      omega
    · rw [ic, pc]
    · rw [id2, pd]
    · rw [ie, pe]
      omega
    · rw [ig, pf]
      omega

/-- After processing at least one chunk, the persisted ledger counters
equal the in-memory stats. -/
theorem importChunks_sync (d : Bool) (cs : List (List RawRow)) :
    ∀ st : ImporterState, cs ≠ [] →
      (importChunks d st cs).job.processed_rows
        = (importChunks d st cs).stats.processed ∧
      (importChunks d st cs).job.created_count
        = (importChunks d st cs).stats.created ∧
      (importChunks d st cs).job.updated_count
        = (importChunks d st cs).stats.updated ∧
      (importChunks d st cs).job.skipped_count
        = (importChunks d st cs).stats.skipped ∧
      (importChunks d st cs).job.error_count
        = (importChunks d st cs).stats.errors := by
  induction cs with
  | nil => intro st h; exact absurd rfl h
  | cons c rest ih =>
    intro st _
    by_cases hrest : rest = []
    · subst hrest
      exact ⟨rfl, rfl, rfl, rfl, rfl⟩
    · have hunf : importChunks d st (c :: rest)
          = importChunks d
              (update_progress
                (process_chunk d (addProcessed st c.length) c)) rest := by
        simp [importChunks]
      rw [hunf]
      exact ih _ hrest

/-- Field preservation lemmas for mark_as_completed. -/
theorem mark_as_completed_processed_rows (j : UploadJob) :
    (j.mark_as_completed).processed_rows = j.processed_rows := rfl

/-- total_rows is untouched by mark_as_completed. -/
theorem mark_as_completed_total_rows (j : UploadJob) :
    (j.mark_as_completed).total_rows = j.total_rows := rfl

/-- created_count is untouched by mark_as_completed. -/
theorem mark_as_completed_created_count (j : UploadJob) :
    (j.mark_as_completed).created_count = j.created_count := rfl

/-- updated_count is untouched by mark_as_completed. -/
theorem mark_as_completed_updated_count (j : UploadJob) :
    (j.mark_as_completed).updated_count = j.updated_count := rfl

/-- skipped_count is untouched by mark_as_completed. -/
theorem mark_as_completed_skipped_count (j : UploadJob) :
    (j.mark_as_completed).skipped_count = j.skipped_count := rfl

/-- error_count is untouched by mark_as_completed. -/
theorem mark_as_completed_error_count (j : UploadJob) :
    (j.mark_as_completed).error_count = j.error_count := rfl

/-- Accounting of a full default-options run started on a fresh job: on
the completed ledger, processed equals total, errors are bounded by
skips and by processed, and created + updated + duplicate-skips equal
processed minus row-level errors. -/
theorem import_run_accounting (rows : List RawRow) (table : List Product) :
    ((importChunks true
        ⟨{ initStats with total := rows.length },
         { initJob.mark_as_processing with total_rows := rows.length },
         table⟩ (chunksOf rows)).job.mark_as_completed).processed_rows
      = ((importChunks true
        ⟨{ initStats with total := rows.length },
         { initJob.mark_as_processing with total_rows := rows.length },
         table⟩ (chunksOf rows)).job.mark_as_completed).total_rows ∧
    ((importChunks true
        ⟨{ initStats with total := rows.length },
         { initJob.mark_as_processing with total_rows := rows.length },
         table⟩ (chunksOf rows)).job.mark_as_completed).error_count
      ≤ ((importChunks true
        ⟨{ initStats with total := rows.length },
         { initJob.mark_as_processing with total_rows := rows.length },
         table⟩ (chunksOf rows)).job.mark_as_completed).skipped_count ∧
    ((importChunks true
        ⟨{ initStats with total := rows.length },
         { initJob.mark_as_processing with total_rows := rows.length },
         table⟩ (chunksOf rows)).job.mark_as_completed).error_count
      ≤ ((importChunks true
        ⟨{ initStats with total := rows.length },
         { initJob.mark_as_processing with total_rows := rows.length },
         table⟩ (chunksOf rows)).job.mark_as_completed).processed_rows ∧
    ((importChunks true
        ⟨{ initStats with total := rows.length },
         { initJob.mark_as_processing with total_rows := rows.length },
         table⟩ (chunksOf rows)).job.mark_as_completed).created_count
      + ((importChunks true
        ⟨{ initStats with total := rows.length },
         { initJob.mark_as_processing with total_rows := rows.length },
         table⟩ (chunksOf rows)).job.mark_as_completed).updated_count
      + (((importChunks true
        ⟨{ initStats with total := rows.length },
         { initJob.mark_as_processing with total_rows := rows.length },
         table⟩ (chunksOf rows)).job.mark_as_completed).skipped_count
        - ((importChunks true
        ⟨{ initStats with total := rows.length },
         { initJob.mark_as_processing with total_rows := rows.length },
         table⟩ (chunksOf rows)).job.mark_as_completed).error_count)
      = ((importChunks true
        ⟨{ initStats with total := rows.length },
         { initJob.mark_as_processing with total_rows := rows.length },
         table⟩ (chunksOf rows)).job.mark_as_completed).processed_rows
        - ((importChunks true
        ⟨{ initStats with total := rows.length },
         { initJob.mark_as_processing with total_rows := rows.length },
         table⟩ (chunksOf rows)).job.mark_as_completed).error_count := by
  rw [mark_as_completed_processed_rows, mark_as_completed_total_rows,
    mark_as_completed_created_count, mark_as_completed_updated_count,
    mark_as_completed_skipped_count, mark_as_completed_error_count]
  by_cases hrows : rows = []
  · subst hrows
    exact ⟨rfl, le_refl _, le_refl _, rfl⟩
  · have hcs : chunksOf rows ≠ [] := by
      rw [chunksOf_cons hrows]
      simp
    obtain ⟨s1, s2, s3, s4, s5⟩ :=
      importChunks_sync true (chunksOf rows)
        ⟨{ initStats with total := rows.length },
         { initJob.mark_as_processing with total_rows := rows.length },
         table⟩ hcs
    obtain ⟨a1, a2, a3, a4, de, ds, a5, a6, a7⟩ :=
      importChunks_accounting (chunksOf rows)
        ⟨{ initStats with total := rows.length },
         { initJob.mark_as_processing with total_rows := rows.length },
         table⟩
    rw [chunksOf_length_sum] at a1 a2
    rw [s1, s2, s3, s4, s5]
    have z1 : (⟨{ initStats with total := rows.length },
        { initJob.mark_as_processing with total_rows := rows.length },
        table⟩ : ImporterState).stats.processed = 0 := rfl
    have z2 : (⟨{ initStats with total := rows.length },
        { initJob.mark_as_processing with total_rows := rows.length },
        table⟩ : ImporterState).stats.created = 0 := rfl
    have z3 : (⟨{ initStats with total := rows.length },
        { initJob.mark_as_processing with total_rows := rows.length },
        table⟩ : ImporterState).stats.updated = 0 := rfl
    have z4 : (⟨{ initStats with total := rows.length },
        { initJob.mark_as_processing with total_rows := rows.length },
        table⟩ : ImporterState).stats.skipped = 0 := rfl
    have z5 : (⟨{ initStats with total := rows.length },
        { initJob.mark_as_processing with total_rows := rows.length },
        table⟩ : ImporterState).stats.errors = 0 := rfl
    have z6 : (⟨{ initStats with total := rows.length },
        { initJob.mark_as_processing with total_rows := rows.length },
        table⟩ : ImporterState).job.total_rows = rows.length := rfl
    rw [z2, z3, z4] at a1
    rw [z1] at a2
    rw [z5] at a5
    rw [z4] at a6
    rw [z6] at a4
    refine ⟨?_, ?_, ?_, ?_⟩
    · rw [a2, a4]
      omega
    · rw [a5, a6]
      omega
    · rw [a5, a2]
      omega
    · rw [a5]
      omega

/-! ## Key-presence lemmas for idempotence -/

/-- Membership gives a positive contains test. -/
theorem contains_of_mem {l : List Str} {a : Str} (h : a ∈ l) :
    l.contains a = true := by
  simpa using h

/-- When every pending update writes back its fetch key, bulk_update
does not change which keys are present. -/
theorem keyPresent_applyUpdates {um : List (Str × NormRow)}
    (hum : ∀ e ∈ um, pyStrip (pyLower e.2.sku) = e.1)
    (t : List Product) (k : Str) :
    keyPresent (applyUpdates t um) k = keyPresent t k := by
  have hmap := applyUpdates_keys um t hum
  cases htk : keyPresent t k with
  | true =>
    apply keyPresent_iff.mpr
    rw [hmap]
    exact keyPresent_iff.mp htk
  | false =>
    cases hak : keyPresent (applyUpdates t um) k with
    | true =>
      exfalso
      have := keyPresent_iff.mp hak
      rw [hmap] at this
      rw [keyPresent_iff.mpr this] at htk
      cases htk
    | false => rfl

/-- chunkOk distributes over flatten. -/
theorem chunkOk_flatten (L : List (List RawRow)) :
    chunkOk L.flatten = (L.map chunkOk).flatten := by
  induction L with
  | nil => rfl
  | cons c cs ih =>
    simp only [List.flatten_cons, chunkOk_append, ih, List.map_cons]

/-- Every successfully normalized row of a file lies in the chunkOk of
one of its chunks. -/
theorem chunkOk_mem_exists {rows : List RawRow} {nr : NormRow}
    (h : nr ∈ chunkOk rows) :
    ∃ c ∈ chunksOf rows, nr ∈ chunkOk c := by
  rw [← chunksOf_flatten rows, chunkOk_flatten] at h
  obtain ⟨l, hl, hnr⟩ := List.mem_flatten.mp h
  obtain ⟨c, hc, hcl⟩ := List.mem_map.mp hl
  exact ⟨c, hc, by rw [hcl]; exact hnr⟩

/-- The chunkOk of a chunk embeds into the chunkOk of the file. -/
theorem chunkOk_subset_of_chunk {rows c : List RawRow} {nr : NormRow}
    (hc : c ∈ chunksOf rows) (h : nr ∈ chunkOk c) : nr ∈ chunkOk rows := by
  obtain ⟨r, hr, hro⟩ := List.mem_filterMap.mp h
  exact List.mem_filterMap.mpr ⟨r, mem_of_mem_chunksOf hc hr, hro⟩

/-- The count of successfully normalized rows equals the count of rows
that pass isOkRow. -/
theorem chunkOk_length_eq_filter (rows : List RawRow) :
    (chunkOk rows).length = (rows.filter isOkRow).length := by
  induction rows with
  | nil => rfl
  | cons r rs ih =>
    cases hr : normalize_row r with
    | ok nr =>
      have h1 : chunkOk (r :: rs) = nr :: chunkOk rs := by
        simp [chunkOk, List.filterMap_cons, hr, Except.toOption]
      have h2 : isOkRow r = true := by simp [isOkRow, hr]
      rw [h1]
      simp only [List.filter_cons, h2, if_true, List.length_cons, ih]
    | error e =>
      have h1 : chunkOk (r :: rs) = chunkOk rs := by
        simp [chunkOk, List.filterMap_cons, hr, Except.toOption]
      have h2 : isOkRow r = false := by simp [isOkRow, hr]
      rw [h1]
      simp only [List.filter_cons, h2, Bool.false_eq_true, if_false, ih]

/-- A row-wise goodness hypothesis over raw rows transfers to chunkOk. -/
theorem goodRow_of_chunkOk {rows : List RawRow}
    (hg : ∀ r ∈ rows, ∀ nr, normalize_row r = .ok nr → goodRow nr)
    {nr : NormRow} (h : nr ∈ chunkOk rows) : goodRow nr := by
  obtain ⟨r, hr, hro⟩ := List.mem_filterMap.mp h
  cases hnr : normalize_row r with
  | ok nr2 =>
    have : nr2 = nr := by
      rw [hnr] at hro
      simpa [Except.toOption] using hro
    subst this
    exact hg r hr nr2 hnr
  | error e =>
    rw [hnr] at hro
    simp [Except.toOption] at hro

/-- One chunk of good rows preserves every present key and makes the key
of each of its successfully normalized rows present. -/
theorem process_chunk_keys (d : Bool) (st : ImporterState)
    (rows : List RawRow)
    (hg : ∀ nr ∈ chunkOk rows, goodRow nr) :
    (∀ k, keyPresent st.table k = true →
      keyPresent (process_chunk d st rows).table k = true) ∧
    (∀ nr ∈ chunkOk rows,
      keyPresent (process_chunk d st rows).table (pyLower nr.sku) = true) := by
  obtain ⟨n2, ntab, _, _, _, _, _, _, _, _, _, _, _, _⟩ :=
    normalizeAux_spec rows st 0
  have hval := validAux_all (chunkOk rows) (normalizeAux st 0 rows).1
    (fun nr hmem => chunkOk_sku_ne_nil hmem)
  by_cases hempty : chunkOk rows = []
  · have hpc : process_chunk d st rows = (normalizeAux st 0 rows).1 := by
      unfold process_chunk
      rw [n2, hval]
      simp [hempty]
    rw [hpc, ntab]
    exact ⟨fun k hk => hk, fun nr hmem => absurd hmem (by simp [hempty])⟩
  · have hpc : process_chunk d st rows
        = chunkApply d (normalizeAux st 0 rows).1
            (partitionAux (normalizeAux st 0 rows).1.table
              ((chunkOk rows).map (fun nr => pyLower (pyStrip nr.sku)))
              ([], [], []) (chunkOk rows)) := by
      unfold process_chunk
      rw [n2, hval]
      simp [hempty]
    have hum : ∀ e ∈ (partitionAux (normalizeAux st 0 rows).1.table
        ((chunkOk rows).map (fun nr => pyLower (pyStrip nr.sku)))
        ([], [], []) (chunkOk rows)).2.2,
        pyStrip (pyLower e.2.sku) = e.1 := by
      intro e he
      rcases partitionAux_updmap_mem _ _ _ _ e he with h | ⟨nr, hnr, hee⟩
      · simp at h
      · subst hee
        exact (hg nr hnr).2
    rw [hpc]
    unfold chunkApply
    by_cases hcond : d = false ∧
        (bulkCreateIgnore (normalizeAux st 0 rows).1.table
          (partitionAux (normalizeAux st 0 rows).1.table
            ((chunkOk rows).map (fun nr => pyLower (pyStrip nr.sku)))
            ([], [], []) (chunkOk rows)).1).2
          ≠ (partitionAux (normalizeAux st 0 rows).1.table
              ((chunkOk rows).map (fun nr => pyLower (pyStrip nr.sku)))
              ([], [], []) (chunkOk rows)).1.length
    · rw [if_pos hcond]
      obtain ⟨new, f1, _⟩ := fallbackCreates_spec
        (partitionAux (normalizeAux st 0 rows).1.table
          ((chunkOk rows).map (fun nr => pyLower (pyStrip nr.sku)))
          ([], [], []) (chunkOk rows)).1
        (normalizeAux st 0 rows).1
      constructor
      · intro k hk
        rw [f1, ntab, keyPresent_append, hk]
        rfl
      · intro nr hmem
        rcases partitionAux_cover (normalizeAux st 0 rows).1.table
          ((chunkOk rows).map (fun nr => pyLower (pyStrip nr.sku)))
          (chunkOk rows) ([], [], []) nr hmem with ⟨_, hk⟩ | hcr
        · rw [f1, keyPresent_append, hk]
          rfl
        · have hcov := fallbackCreates_covers
            (partitionAux (normalizeAux st 0 rows).1.table
              ((chunkOk rows).map (fun nr => pyLower (pyStrip nr.sku)))
              ([], [], []) (chunkOk rows)).1
            (normalizeAux st 0 rows).1 (mkCreateProduct nr) hcr
          rw [show (mkCreateProduct nr).sku_lower = pyLower nr.sku from
            (hg nr hmem).2] at hcov
          exact hcov
    · rw [if_neg hcond, chunkSuccess_table]
      constructor
      · intro k hk
        rw [keyPresent_applyUpdates hum]
        exact bulkCreateIgnore_mono (by rw [ntab]; exact hk)
      · intro nr hmem
        rw [keyPresent_applyUpdates hum]
        rcases partitionAux_cover (normalizeAux st 0 rows).1.table
          ((chunkOk rows).map (fun nr => pyLower (pyStrip nr.sku)))
          (chunkOk rows) ([], [], []) nr hmem with ⟨_, hk⟩ | hcr
        · exact bulkCreateIgnore_mono hk
        · have hcov := bulkCreateIgnore_covers
            (partitionAux (normalizeAux st 0 rows).1.table
              ((chunkOk rows).map (fun nr => pyLower (pyStrip nr.sku)))
              ([], [], []) (chunkOk rows)).1
            (normalizeAux st 0 rows).1.table (mkCreateProduct nr) hcr
          rw [show (mkCreateProduct nr).sku_lower = pyLower nr.sku from
            (hg nr hmem).2] at hcov
          exact hcov

/-- When every successfully normalized row of a chunk already has its key
in the table, the whole chunk routes to update: created is unchanged and
updated grows by the number of such rows. -/
theorem process_chunk_allhit (d : Bool) (st : ImporterState)
    (rows : List RawRow)
    (hg : ∀ nr ∈ chunkOk rows, goodRow nr)
    (hall : ∀ nr ∈ chunkOk rows,
      keyPresent st.table (pyLower nr.sku) = true) :
    (process_chunk d st rows).stats.created = st.stats.created ∧
    (process_chunk d st rows).stats.updated
      = st.stats.updated + (chunkOk rows).length := by
  obtain ⟨n2, ntab, _, _, ncre, nupd, _, _, _, _, _, _, _, _⟩ :=
    normalizeAux_spec rows st 0
  have hval := validAux_all (chunkOk rows) (normalizeAux st 0 rows).1
    (fun nr hmem => chunkOk_sku_ne_nil hmem)
  by_cases hempty : chunkOk rows = []
  · have hpc : process_chunk d st rows = (normalizeAux st 0 rows).1 := by
      unfold process_chunk
      rw [n2, hval]
      simp [hempty]
    rw [hpc]
    refine ⟨ncre, ?_⟩
    rw [nupd]
    simp [hempty]
  · have hpc : process_chunk d st rows
        = chunkApply d (normalizeAux st 0 rows).1
            (partitionAux (normalizeAux st 0 rows).1.table
              ((chunkOk rows).map (fun nr => pyLower (pyStrip nr.sku)))
              ([], [], []) (chunkOk rows)) := by
      unfold process_chunk
      rw [n2, hval]
      simp [hempty]
    have hallhit : ∀ nr ∈ chunkOk rows,
        ((chunkOk rows).map
          (fun x => pyLower (pyStrip x.sku))).contains (pyLower nr.sku)
          = true ∧
        keyPresent (normalizeAux st 0 rows).1.table (pyLower nr.sku)
          = true := by
      intro nr hmem
      constructor
      · apply contains_of_mem
        rw [← (hg nr hmem).1]
        exact List.mem_map_of_mem _ hmem
      · rw [ntab]
        exact hall nr hmem
    obtain ⟨hp1, hp2⟩ := partitionAux_allhit
      (normalizeAux st 0 rows).1.table
      ((chunkOk rows).map (fun x => pyLower (pyStrip x.sku)))
      (chunkOk rows) hallhit ([], [], [])
    rw [hpc]
    unfold chunkApply
    rw [hp1]
    have hcond : ¬(d = false ∧
        (bulkCreateIgnore (normalizeAux st 0 rows).1.table
          ([] : List Product)).2 ≠ ([] : List Product).length) := by
      simp [bulkCreateIgnore]
    rw [if_neg hcond]
    rw [chunkSuccess_created, chunkSuccess_updated]
    constructor
    · rw [hp1, ncre]
      simp [bulkCreateIgnore]
    · rw [hp2, nupd]
      simp

/-- Across the whole loop, present keys stay present and every chunk's
successfully normalized rows end with their keys present. -/
theorem importChunks_keys (d : Bool) (cs : List (List RawRow)) :
    ∀ st : ImporterState,
      (∀ c ∈ cs, ∀ nr ∈ chunkOk c, goodRow nr) →
      ((∀ k, keyPresent st.table k = true →
          keyPresent (importChunks d st cs).table k = true) ∧
       (∀ c ∈ cs, ∀ nr ∈ chunkOk c,
          keyPresent (importChunks d st cs).table (pyLower nr.sku)
            = true)) := by
  induction cs with
  | nil =>
    intro st _
    exact ⟨fun k hk => hk, fun c hc => absurd hc (by simp)⟩
  | cons c rest ih =>
    intro st hg
    have hgc : ∀ nr ∈ chunkOk c, goodRow nr := hg c (by simp)
    obtain ⟨pk1, pk2⟩ := process_chunk_keys d (addProcessed st c.length) c hgc
    obtain ⟨ik1, ik2⟩ :=
      ih (update_progress (process_chunk d (addProcessed st c.length) c))
        (fun c2 hc2 => hg c2 (by simp [hc2]))
    have hunf : importChunks d st (c :: rest)
        = importChunks d
            (update_progress
              (process_chunk d (addProcessed st c.length) c)) rest := by
      simp [importChunks]
    rw [hunf]
    refine ⟨?_, ?_⟩
    · intro k hk
      exact ik1 k (pk1 k hk)
    · intro c2 hc2 nr hnr
      rcases List.mem_cons.mp hc2 with hc2 | hc2
      · subst hc2
        exact ik1 _ (pk2 nr hnr)
      · exact ik2 c2 hc2 nr hnr

/-- When every chunk's rows already have their keys present at the start,
the whole loop creates nothing and updates once per normalized row. -/
theorem importChunks_allhit (d : Bool) (cs : List (List RawRow)) :
    ∀ st : ImporterState,
      (∀ c ∈ cs, ∀ nr ∈ chunkOk c, goodRow nr) →
      (∀ c ∈ cs, ∀ nr ∈ chunkOk c,
        keyPresent st.table (pyLower nr.sku) = true) →
      (importChunks d st cs).stats.created = st.stats.created ∧
      (importChunks d st cs).stats.updated
        = st.stats.updated
          + (cs.map (fun c => (chunkOk c).length)).sum := by
  induction cs with
  | nil =>
    intro st _ _
    exact ⟨rfl, by simp [importChunks]⟩
  | cons c rest ih =>
    intro st hg hall
    have hgc : ∀ nr ∈ chunkOk c, goodRow nr := hg c (by simp)
    obtain ⟨pa, pb⟩ := process_chunk_allhit d (addProcessed st c.length) c hgc
      (fun nr hnr => hall c (by simp) nr hnr)
    obtain ⟨pk1, _⟩ := process_chunk_keys d (addProcessed st c.length) c hgc
    obtain ⟨ia, ib⟩ :=
      ih (update_progress (process_chunk d (addProcessed st c.length) c))
        (fun c2 hc2 => hg c2 (by simp [hc2]))
        (fun c2 hc2 nr hnr => pk1 _ (hall c2 (by simp [hc2]) nr hnr))
    have hunf : importChunks d st (c :: rest)
        = importChunks d
            (update_progress
              (process_chunk d (addProcessed st c.length) c)) rest := by
      simp [importChunks]
    rw [hunf]
    constructor
    · rw [ia, update_progress_stats, pa, addProcessed_created]
    · rw [ib, update_progress_stats, pb, addProcessed_updated]
      simp only [List.map_cons, List.sum_cons]
      omega

/-- After a full run over a file of good rows, every successfully
normalized row's partition key is present in the resulting table. -/
theorem import_run1_covers (d : Bool) (rows : List RawRow)
    (table : List Product)
    (hg : ∀ nr ∈ chunkOk rows, goodRow nr) :
    ∀ nr ∈ chunkOk rows,
      keyPresent (importChunks d
        ⟨{ initStats with total := rows.length },
         { initJob.mark_as_processing with total_rows := rows.length },
         table⟩ (chunksOf rows)).table (pyLower nr.sku) = true := by
  intro nr hnr
  obtain ⟨c, hc, hnc⟩ := chunkOk_mem_exists hnr
  obtain ⟨_, k2⟩ := importChunks_keys d (chunksOf rows)
    ⟨{ initStats with total := rows.length },
     { initJob.mark_as_processing with total_rows := rows.length },
     table⟩
    (fun c2 hc2 nr2 hn2 => hg nr2 (chunkOk_subset_of_chunk hc2 hn2))
  exact k2 c hc nr hnc

/-- A fresh run over a file of good rows whose keys are all present in
the starting table creates nothing and updates once per normalized row. -/
theorem import_run2_counts (d : Bool) (rows : List RawRow)
    (table : List Product)
    (hg : ∀ nr ∈ chunkOk rows, goodRow nr)
    (hall : ∀ nr ∈ chunkOk rows,
      keyPresent table (pyLower nr.sku) = true) :
    (importChunks d
      ⟨{ initStats with total := rows.length },
       { initJob.mark_as_processing with total_rows := rows.length },
       table⟩ (chunksOf rows)).stats.created = 0 ∧
    (importChunks d
      ⟨{ initStats with total := rows.length },
       { initJob.mark_as_processing with total_rows := rows.length },
       table⟩ (chunksOf rows)).stats.updated
      = (chunkOk rows).length := by
  obtain ⟨a, b⟩ := importChunks_allhit d (chunksOf rows)
    ⟨{ initStats with total := rows.length },
     { initJob.mark_as_processing with total_rows := rows.length },
     table⟩
    (fun c2 hc2 nr2 hn2 => hg nr2 (chunkOk_subset_of_chunk hc2 hn2))
    (fun c2 hc2 nr2 hn2 => hall nr2 (chunkOk_subset_of_chunk hc2 hn2))
  rw [chunksOf_chunkOk_sum] at b
  constructor
  · rw [a]
    rfl
  · rw [b]
    have z : (⟨{ initStats with total := rows.length },
        { initJob.mark_as_processing with total_rows := rows.length },
        table⟩ : ImporterState).stats.updated = 0 := rfl
    rw [z]
    omega

/-! ## Two-row case-duplicate chunk behaviour -/

/-- A chunk of two rows whose SKUs agree case-insensitively, processed
against a table that does not yet hold the key: both rows land in the
create set, ignore_conflicts drops the second, and the surviving product
carries the first row's SKU. -/
theorem two_row_chunk_fresh (st : ImporterState) (r1 r2 : RawRow)
    (nr1 nr2 : NormRow)
    (h1 : normalize_row r1 = .ok nr1) (h2 : normalize_row r2 = .ok nr2)
    (hk : pyLower nr2.sku = pyLower nr1.sku)
    (g1 : goodRow nr1) (g2 : goodRow nr2)
    (hst : st.table = []) :
    (process_chunk true st [r1, r2]).table = [mkCreateProduct nr1] := by
  have ne1 : pyStrip nr1.sku ≠ [] := normalize_ok_sku_ne_nil h1
  have ne2 : pyStrip nr2.sku ≠ [] := normalize_ok_sku_ne_nil h2
  have hnorm : normalizeAux st 0 [r1, r2] = (st, [nr1, nr2]) := by
    simp [normalizeAux, h1, h2]
  have hvalid : validAux st [nr1, nr2]
      = (st, [pyLower nr1.sku, pyLower nr1.sku], [nr1, nr2]) := by
    simp [validAux, ne1, ne2, g1.1, g2.1, hk]
  have e1 : (mkCreateProduct nr1).sku_lower = pyLower nr1.sku := g1.2
  have e2 : (mkCreateProduct nr2).sku_lower = pyLower nr1.sku := by
    show pyStrip (pyLower nr2.sku) = _
    rw [g2.2, hk]
  have hpart : partitionAux ([] : List Product)
      [pyLower nr1.sku, pyLower nr1.sku] ([], [], []) [nr1, nr2]
      = ([mkCreateProduct nr1, mkCreateProduct nr2], [], []) := by
    simp [partitionAux, findBySkuLower]
  have hbc : bulkCreateIgnore ([] : List Product)
      [mkCreateProduct nr1, mkCreateProduct nr2]
      = ([mkCreateProduct nr1], 1) := by
    have hkp0 : keyPresent ([] : List Product)
        (mkCreateProduct nr1).sku_lower = false := rfl
    have hkp1 : keyPresent [mkCreateProduct nr1]
        (mkCreateProduct nr2).sku_lower = true := by
      rw [e2]
      simp [keyPresent, findBySkuLower, e1]
    simp [bulkCreateIgnore, hkp0, hkp1]
  unfold process_chunk chunkApply
  rw [hnorm, hvalid]
  simp [hst, hpart, hbc, chunkSuccess_table, applyUpdates]

/-- A chunk of two rows whose SKUs agree case-insensitively, processed
against a table already holding the key: both rows route to update of
the same fetched product, and the last row's fields win. -/
theorem two_row_chunk_existing (st : ImporterState) (r1 r2 : RawRow)
    (nr1 nr2 : NormRow) (p : Product)
    (h1 : normalize_row r1 = .ok nr1) (h2 : normalize_row r2 = .ok nr2)
    (hk : pyLower nr2.sku = pyLower nr1.sku)
    (g1 : goodRow nr1) (g2 : goodRow nr2)
    (hst : st.table = [p]) (hp : p.sku_lower = pyLower nr1.sku) :
    (process_chunk true st [r1, r2]).table
      = [⟨nr2.sku, pyStrip (pyLower nr2.sku), nr2.name, nr2.description,
          p.is_active⟩] := by
  have ne1 : pyStrip nr1.sku ≠ [] := normalize_ok_sku_ne_nil h1
  have ne2 : pyStrip nr2.sku ≠ [] := normalize_ok_sku_ne_nil h2
  have hnorm : normalizeAux st 0 [r1, r2] = (st, [nr1, nr2]) := by
    simp [normalizeAux, h1, h2]
  have hvalid : validAux st [nr1, nr2]
      = (st, [pyLower nr1.sku, pyLower nr1.sku], [nr1, nr2]) := by
    simp [validAux, ne1, ne2, g1.1, g2.1, hk]
  have hfind : findBySkuLower [p] (pyLower nr1.sku) = some p := by
    simp [findBySkuLower, hp]
  have hpart : partitionAux [p]
      [pyLower nr1.sku, pyLower nr1.sku] ([], [], []) [nr1, nr2]
      = ([], [pyLower nr1.sku, pyLower nr1.sku],
         [(pyLower nr1.sku, nr2)]) := by
    simp [partitionAux, hfind, hk, dictSetNR]
  have happ : applyUpdates [p] [(pyLower nr1.sku, nr2)]
      = [⟨nr2.sku, pyStrip (pyLower nr2.sku), nr2.name, nr2.description,
          p.is_active⟩] := by
    simp [applyUpdates, hp]
  unfold process_chunk chunkApply
  rw [hnorm, hvalid]
  simp [hst, hpart, happ, chunkSuccess_table, bulkCreateIgnore]

/-! ## Claim theorems -/

/-- C8: after every record_trigger call the invariant successful_triggers
+ failed_triggers = total_triggers holds — record_trigger preserves it
from any state satisfying it, and every sequence of record_trigger calls
starting from a freshly created webhook (all counters 0) maintains it. -/
theorem record_trigger_invariant :
    (∀ (w : WebhookStats) (b : Bool),
        w.successful_triggers + w.failed_triggers = w.total_triggers →
        (record_trigger w b).successful_triggers
          + (record_trigger w b).failed_triggers
          = (record_trigger w b).total_triggers) ∧
    (∀ calls : List Bool,
        (calls.foldl record_trigger ⟨0, 0, 0⟩).successful_triggers
          + (calls.foldl record_trigger ⟨0, 0, 0⟩).failed_triggers
          = (calls.foldl record_trigger ⟨0, 0, 0⟩).total_triggers) :=
  ⟨record_trigger_preserves, fun calls => record_trigger_foldl calls ⟨0, 0, 0⟩ rfl⟩

/-- Witness for C8 at concrete inputs. -/
theorem record_trigger_invariant_witness :
    ((record_trigger ⟨5, 2, 3⟩ true).successful_triggers
      + (record_trigger ⟨5, 2, 3⟩ true).failed_triggers
      = (record_trigger ⟨5, 2, 3⟩ true).total_triggers) ∧
    ((([true, false, true] : List Bool).foldl record_trigger
        ⟨0, 0, 0⟩).successful_triggers
      + (([true, false, true] : List Bool).foldl record_trigger
        ⟨0, 0, 0⟩).failed_triggers
      = (([true, false, true] : List Bool).foldl record_trigger
        ⟨0, 0, 0⟩).total_triggers) :=
  ⟨record_trigger_invariant.1 ⟨5, 2, 3⟩ true (by decide),
   record_trigger_invariant.2 [true, false, true]⟩

/-- C1: against the claimed three-attempt retry behaviour, the task
evaluated on an endpoint that always returns HTTP 500 performs exactly one
attempt: one WebhookLog entry with retry_count 0, failed_triggers raised
by 1 (not 3), successful_triggers by 0, and an immediate unrecoverable
task failure — the non-2xx branch raises a plain Exception that the
generic handler re-raises without ever calling self.retry. -/
theorem webhook500_single_attempt :
    runSendWebhook (fun _ => HttpResult.resp 500) ⟨[], ⟨0, 0, 0⟩⟩
      = (TaskOutcome.failed,
         ⟨[⟨some 500, false, 0⟩], ⟨1, 0, 1⟩⟩) := by
  rfl

/-- For contrast with C1: a transport-level failure does take the
self.retry path and exhausts the retry budget, producing four logged
attempts with retry counts 0 through 3. -/
theorem webhook_transport_retries :
    runSendWebhook (fun _ => HttpResult.transportError) ⟨[], ⟨0, 0, 0⟩⟩
      = (TaskOutcome.failed,
         ⟨[⟨none, false, 0⟩, ⟨none, false, 1⟩, ⟨none, false, 2⟩,
           ⟨none, false, 3⟩], ⟨4, 0, 4⟩⟩) := by
  rfl

/-- C4: a single-row file whose SKU is empty after trimming completes the
job with error_count and skipped_count both 1 and one error entry — but
the recorded row number is 2, not the row's 1-based file position 1,
because process_chunk computes stats['processed'] + idx + 1 after
processed has already counted the whole chunk. -/
theorem row_number_offset_bug :
    (import_csv (some [lit "sku", lit "name"])
        [[(lit "sku", some (lit "")), (lit "name", some (lit "X"))]]
        true []).state.job.status = JobStatus.completed ∧
    (import_csv (some [lit "sku", lit "name"])
        [[(lit "sku", some (lit "")), (lit "name", some (lit "X"))]]
        true []).state.job.error_count = 1 ∧
    (import_csv (some [lit "sku", lit "name"])
        [[(lit "sku", some (lit "")), (lit "name", some (lit "X"))]]
        true []).state.job.skipped_count = 1 ∧
    (import_csv (some [lit "sku", lit "name"])
        [[(lit "sku", some (lit "")), (lit "name", some (lit "X"))]]
        true []).state.job.error_details
      = [⟨2, ErrMsg.skuRequired⟩] := by
  refine ⟨rfl, rfl, rfl, rfl⟩

/-- C9: a completely empty input file (no header row, so the reader
yields no field names) skips header validation entirely and completes
with total_rows 0 and no errors, whereas a file whose header row lacks
the required columns fails the job. -/
theorem empty_file_skips_validation :
    ∀ (table : List Product) (d : Bool),
      ((import_csv none [] d table).raised = none ∧
       (import_csv none [] d table).state.job.status = JobStatus.completed ∧
       (import_csv none [] d table).state.job.total_rows = 0 ∧
       (import_csv none [] d table).state.job.processed_rows = 0 ∧
       (import_csv none [] d table).state.job.error_details = []) ∧
      ((import_csv (some [lit "id"]) [] d table).state.job.status
          = JobStatus.failed ∧
       (import_csv (some [lit "id"]) [] d table).raised
          = some (ErrMsg.headerMissing (lit "name"))) := by
  intro table d
  exact ⟨⟨rfl, rfl, rfl, rfl, rfl⟩, ⟨rfl, rfl⟩⟩

/-- C5: for every header row lacking a required column (sku or name after
case-insensitive trimming), the whole import fails regardless of the data
rows: the job status becomes failed, the validation message is attached
as the single error entry with row number 0, and the exception is
re-raised to the calling task layer. -/
theorem header_validation_fails_job (hdrs : List Str) (rows : List RawRow)
    (d : Bool) (table : List Product)
    (h : (lit "sku") ∉ hdrs.map (fun x => pyStrip (pyLower x)) ∨
         (lit "name") ∉ hdrs.map (fun x => pyStrip (pyLower x))) :
    ∃ m, validate_headers hdrs = some m ∧
      (import_csv (some hdrs) rows d table).raised = some m ∧
      (import_csv (some hdrs) rows d table).state.job.status
        = JobStatus.failed ∧
      (import_csv (some hdrs) rows d table).state.job.error_details
        = [⟨0, m⟩] := by
  have main : ∃ m, validate_headers hdrs = some m := by
    by_cases hcn : (lit "name") ∈ hdrs.map (fun x => pyStrip (pyLower x))
    · by_cases hcs : (lit "sku") ∈ hdrs.map (fun x => pyStrip (pyLower x))
      · exact absurd hcs (h.resolve_right (fun hh => hh hcn))
      · exact ⟨.headerMissing (lit "sku"), by simp [validate_headers, hcn, hcs]⟩
    · exact ⟨.headerMissing (lit "name"), by simp [validate_headers, hcn]⟩
  obtain ⟨m, hm⟩ := main
  refine ⟨m, hm, ?_, ?_, ?_⟩ <;>
    simp [import_csv, hm, UploadJob.mark_as_failed, UploadJob.add_error,
      UploadJob.mark_as_processing, initJob]

/-- Witness for C5: a header row holding only the name column lacks the
sku column, so any file under it fails with a row-0 error entry. -/
theorem header_validation_fails_job_witness :
    ((lit "sku") ∉ ([lit "name"] : List Str).map (fun x => pyStrip (pyLower x)) ∨
     (lit "name") ∉ ([lit "name"] : List Str).map (fun x => pyStrip (pyLower x))) ∧
    ∃ m, validate_headers [lit "name"] = some m ∧
      (import_csv (some [lit "name"]) [] true []).raised = some m ∧
      (import_csv (some [lit "name"]) [] true []).state.job.status
        = JobStatus.failed ∧
      (import_csv (some [lit "name"]) [] true []).state.job.error_details
        = [⟨0, m⟩] :=
  ⟨Or.inl (by decide),
   header_validation_fails_job [lit "name"] [] true [] (Or.inl (by decide))⟩

/-- C2 counterexample: importing a file whose rows carry SKUs "ABC" then
"abc" into an empty table leaves exactly one product, but its stored sku
is "ABC" — the first such row, not the last as the claim states, because
both rows land in the create set and ignore_conflicts drops the second. -/
theorem csv_case_dup_counterexample :
    (import_csv (some [lit "sku", lit "name"])
        [[(lit "sku", some (lit "ABC")), (lit "name", some (lit "N1"))],
         [(lit "sku", some (lit "abc")), (lit "name", some (lit "N2"))]]
        true []).state.table.map (fun p => p.sku) = [lit "ABC"] ∧
    lit "ABC" ≠ lit "abc" := by
  exact ⟨rfl, by decide⟩

/-- C3 counterexample: with skip_duplicates disabled, a chunk holding one
update-routed row and two case-conflicting create rows completes the job
(status completed, processed_rows = total_rows) yet the accounting does
not close: created + updated + duplicate-skips differs from processed
minus row-level errors, because the rolled-back update is dropped by the
fallback path. -/
theorem accounting_counterexample :
    (import_csv (some [lit "sku", lit "name"])
        [[(lit "sku", some (lit "xyz")), (lit "name", some (lit "N0"))],
         [(lit "sku", some (lit "ABC")), (lit "name", some (lit "N1"))],
         [(lit "sku", some (lit "abc")), (lit "name", some (lit "N2"))]]
        false [⟨lit "XYZ", lit "xyz", lit "Old", [], true⟩]).raised
      = none ∧
    (import_csv (some [lit "sku", lit "name"])
        [[(lit "sku", some (lit "xyz")), (lit "name", some (lit "N0"))],
         [(lit "sku", some (lit "ABC")), (lit "name", some (lit "N1"))],
         [(lit "sku", some (lit "abc")), (lit "name", some (lit "N2"))]]
        false [⟨lit "XYZ", lit "xyz", lit "Old", [], true⟩]).state.job.status
      = JobStatus.completed ∧
    (import_csv (some [lit "sku", lit "name"])
        [[(lit "sku", some (lit "xyz")), (lit "name", some (lit "N0"))],
         [(lit "sku", some (lit "ABC")), (lit "name", some (lit "N1"))],
         [(lit "sku", some (lit "abc")), (lit "name", some (lit "N2"))]]
        false [⟨lit "XYZ", lit "xyz", lit "Old", [], true⟩]).state.job.processed_rows
      = (import_csv (some [lit "sku", lit "name"])
        [[(lit "sku", some (lit "xyz")), (lit "name", some (lit "N0"))],
         [(lit "sku", some (lit "ABC")), (lit "name", some (lit "N1"))],
         [(lit "sku", some (lit "abc")), (lit "name", some (lit "N2"))]]
        false [⟨lit "XYZ", lit "xyz", lit "Old", [], true⟩]).state.job.total_rows ∧
    (import_csv (some [lit "sku", lit "name"])
        [[(lit "sku", some (lit "xyz")), (lit "name", some (lit "N0"))],
         [(lit "sku", some (lit "ABC")), (lit "name", some (lit "N1"))],
         [(lit "sku", some (lit "abc")), (lit "name", some (lit "N2"))]]
        false [⟨lit "XYZ", lit "xyz", lit "Old", [], true⟩]).state.job.created_count
      + (import_csv (some [lit "sku", lit "name"])
        [[(lit "sku", some (lit "xyz")), (lit "name", some (lit "N0"))],
         [(lit "sku", some (lit "ABC")), (lit "name", some (lit "N1"))],
         [(lit "sku", some (lit "abc")), (lit "name", some (lit "N2"))]]
        false [⟨lit "XYZ", lit "xyz", lit "Old", [], true⟩]).state.job.updated_count
      + ((import_csv (some [lit "sku", lit "name"])
        [[(lit "sku", some (lit "xyz")), (lit "name", some (lit "N0"))],
         [(lit "sku", some (lit "ABC")), (lit "name", some (lit "N1"))],
         [(lit "sku", some (lit "abc")), (lit "name", some (lit "N2"))]]
        false [⟨lit "XYZ", lit "xyz", lit "Old", [], true⟩]).state.job.skipped_count
        - (import_csv (some [lit "sku", lit "name"])
        [[(lit "sku", some (lit "xyz")), (lit "name", some (lit "N0"))],
         [(lit "sku", some (lit "ABC")), (lit "name", some (lit "N1"))],
         [(lit "sku", some (lit "abc")), (lit "name", some (lit "N2"))]]
        false [⟨lit "XYZ", lit "xyz", lit "Old", [], true⟩]).state.job.error_count)
      ≠ (import_csv (some [lit "sku", lit "name"])
        [[(lit "sku", some (lit "xyz")), (lit "name", some (lit "N0"))],
         [(lit "sku", some (lit "ABC")), (lit "name", some (lit "N1"))],
         [(lit "sku", some (lit "abc")), (lit "name", some (lit "N2"))]]
        false [⟨lit "XYZ", lit "xyz", lit "Old", [], true⟩]).state.job.processed_rows
        - (import_csv (some [lit "sku", lit "name"])
        [[(lit "sku", some (lit "xyz")), (lit "name", some (lit "N0"))],
         [(lit "sku", some (lit "ABC")), (lit "name", some (lit "N1"))],
         [(lit "sku", some (lit "abc")), (lit "name", some (lit "N2"))]]
        false [⟨lit "XYZ", lit "xyz", lit "Old", [], true⟩]).state.job.error_count := by
  refine ⟨rfl, rfl, rfl, by decide⟩

set_option maxRecDepth 40000 in
/-- C3 (amended): for every CSV import with valid headers under the
default skip_duplicates=True option (so the atomic bulk path never
raises), the run completes and the ledger closes: processed_rows equals
total_rows, and created_count + updated_count + duplicate-skips
(skipped_count - error_count) equals processed_rows minus the row-level
error count. With skip_duplicates=False the fallback path can drop a
chunk's updates and the books no longer balance (see the
counterexample). -/
theorem accounting_closes_amended (hdrs : List Str) (rows : List RawRow)
    (table : List Product) (hv : validate_headers hdrs = none) :
    (import_csv (some hdrs) rows true table).raised = none ∧
    (import_csv (some hdrs) rows true table).state.job.status
      = JobStatus.completed ∧
    (import_csv (some hdrs) rows true table).state.job.processed_rows
      = (import_csv (some hdrs) rows true table).state.job.total_rows ∧
    (import_csv (some hdrs) rows true table).state.job.error_count
      ≤ (import_csv (some hdrs) rows true table).state.job.skipped_count ∧
    (import_csv (some hdrs) rows true table).state.job.error_count
      ≤ (import_csv (some hdrs) rows true table).state.job.processed_rows ∧
    (import_csv (some hdrs) rows true table).state.job.created_count
        + (import_csv (some hdrs) rows true table).state.job.updated_count
        + ((import_csv (some hdrs) rows true table).state.job.skipped_count
          - (import_csv (some hdrs) rows true table).state.job.error_count)
      = (import_csv (some hdrs) rows true table).state.job.processed_rows
        - (import_csv (some hdrs) rows true table).state.job.error_count := by
  have hrun := import_run_accounting rows table
  refine ⟨?_, ?_, ?_, ?_, ?_, ?_⟩
  · simp only [import_csv, hv]
  · simp only [import_csv, hv]
    rfl
  · simp only [import_csv, hv]
    exact hrun.1
  · simp only [import_csv, hv]
    exact hrun.2.1
  · simp only [import_csv, hv]
    exact hrun.2.2.1
  · simp only [import_csv, hv]
    exact hrun.2.2.2

set_option maxRecDepth 40000 in
/-- Witness for C3 (amended) on a concrete one-row file. -/
theorem accounting_closes_amended_witness :
    validate_headers [lit "sku", lit "name"] = none ∧
    ((import_csv (some [lit "sku", lit "name"])
        [[(lit "sku", some (lit "A")), (lit "name", some (lit "B"))]]
        true []).raised = none ∧
     (import_csv (some [lit "sku", lit "name"])
        [[(lit "sku", some (lit "A")), (lit "name", some (lit "B"))]]
        true []).state.job.status = JobStatus.completed ∧
     (import_csv (some [lit "sku", lit "name"])
        [[(lit "sku", some (lit "A")), (lit "name", some (lit "B"))]]
        true []).state.job.processed_rows
       = (import_csv (some [lit "sku", lit "name"])
        [[(lit "sku", some (lit "A")), (lit "name", some (lit "B"))]]
        true []).state.job.total_rows ∧
     (import_csv (some [lit "sku", lit "name"])
        [[(lit "sku", some (lit "A")), (lit "name", some (lit "B"))]]
        true []).state.job.error_count
       ≤ (import_csv (some [lit "sku", lit "name"])
        [[(lit "sku", some (lit "A")), (lit "name", some (lit "B"))]]
        true []).state.job.skipped_count ∧
     (import_csv (some [lit "sku", lit "name"])
        [[(lit "sku", some (lit "A")), (lit "name", some (lit "B"))]]
        true []).state.job.error_count
       ≤ (import_csv (some [lit "sku", lit "name"])
        [[(lit "sku", some (lit "A")), (lit "name", some (lit "B"))]]
        true []).state.job.processed_rows ∧
     (import_csv (some [lit "sku", lit "name"])
        [[(lit "sku", some (lit "A")), (lit "name", some (lit "B"))]]
        true []).state.job.created_count
         + (import_csv (some [lit "sku", lit "name"])
        [[(lit "sku", some (lit "A")), (lit "name", some (lit "B"))]]
        true []).state.job.updated_count
         + ((import_csv (some [lit "sku", lit "name"])
        [[(lit "sku", some (lit "A")), (lit "name", some (lit "B"))]]
        true []).state.job.skipped_count
           - (import_csv (some [lit "sku", lit "name"])
        [[(lit "sku", some (lit "A")), (lit "name", some (lit "B"))]]
        true []).state.job.error_count)
       = (import_csv (some [lit "sku", lit "name"])
        [[(lit "sku", some (lit "A")), (lit "name", some (lit "B"))]]
        true []).state.job.processed_rows
         - (import_csv (some [lit "sku", lit "name"])
        [[(lit "sku", some (lit "A")), (lit "name", some (lit "B"))]]
        true []).state.job.error_count) :=
  ⟨by decide,
   accounting_closes_amended [lit "sku", lit "name"]
     [[(lit "sku", some (lit "A")), (lit "name", some (lit "B"))]]
     [] (by decide)⟩

/-- C2 (amended): a file with two rows whose SKUs differ only in case
(with whitespace-clean normalized SKUs, default skip_duplicates) leaves
exactly one product row for that case-insensitive SKU, but which row's
sku is stored depends on whether the product already existed: importing
into an empty table keeps the FIRST row's sku (both rows land in the
create set and ignore_conflicts drops the second), while importing into
a table that already holds the key stores the LAST row's sku (both rows
route to update of the same fetched product and the last write wins). -/
theorem csv_case_dup_amended (hdrs : List Str) (r1 r2 : RawRow)
    (nr1 nr2 : NormRow) (p : Product)
    (hv : validate_headers hdrs = none)
    (h1 : normalize_row r1 = .ok nr1) (h2 : normalize_row r2 = .ok nr2)
    (hk : pyLower nr2.sku = pyLower nr1.sku)
    (g1 : goodRow nr1) (g2 : goodRow nr2)
    (hp : p.sku_lower = pyLower nr1.sku) :
    (import_csv (some hdrs) [r1, r2] true []).state.table.map
      (fun q => q.sku) = [nr1.sku] ∧
    (import_csv (some hdrs) [r1, r2] true [p]).state.table.map
      (fun q => q.sku) = [nr2.sku] := by
  have hch : chunksOf [r1, r2] = [[r1, r2]] := rfl
  constructor
  · have hT : (import_csv (some hdrs) [r1, r2] true []).state.table
        = [mkCreateProduct nr1] := by
      simp only [import_csv, hv]
      rw [hch]
      show (update_progress (process_chunk true (addProcessed
        ⟨{ initStats with total := ([r1, r2] : List RawRow).length },
         { initJob.mark_as_processing with
             total_rows := ([r1, r2] : List RawRow).length },
         ([] : List Product)⟩ ([r1, r2] : List RawRow).length)
        [r1, r2])).table = _
      rw [update_progress_table]
      exact two_row_chunk_fresh _ r1 r2 nr1 nr2 h1 h2 hk g1 g2 rfl
    rw [hT]
    rfl
  · have hT : (import_csv (some hdrs) [r1, r2] true [p]).state.table
        = [⟨nr2.sku, pyStrip (pyLower nr2.sku), nr2.name, nr2.description,
            p.is_active⟩] := by
      simp only [import_csv, hv]
      rw [hch]
      show (update_progress (process_chunk true (addProcessed
        ⟨{ initStats with total := ([r1, r2] : List RawRow).length },
         { initJob.mark_as_processing with
             total_rows := ([r1, r2] : List RawRow).length },
         [p]⟩ ([r1, r2] : List RawRow).length)
        [r1, r2])).table = _
      rw [update_progress_table]
      exact two_row_chunk_existing _ r1 r2 nr1 nr2 p h1 h2 hk g1 g2 rfl hp
    rw [hT]
    rfl

/-- Witness for C2 (amended) at SKUs "ABC" and "abc". -/
theorem csv_case_dup_amended_witness :
    validate_headers [lit "sku", lit "name"] = none ∧
    normalize_row [(lit "sku", some (lit "ABC")), (lit "name", some (lit "N1"))]
      = Except.ok ⟨lit "ABC", lit "N1", []⟩ ∧
    normalize_row [(lit "sku", some (lit "abc")), (lit "name", some (lit "N2"))]
      = Except.ok ⟨lit "abc", lit "N2", []⟩ ∧
    pyLower (⟨lit "abc", lit "N2", []⟩ : NormRow).sku
      = pyLower (⟨lit "ABC", lit "N1", []⟩ : NormRow).sku ∧
    goodRow ⟨lit "ABC", lit "N1", []⟩ ∧
    goodRow ⟨lit "abc", lit "N2", []⟩ ∧
    (⟨lit "OLD", lit "abc", lit "Old", [], true⟩ : Product).sku_lower
      = pyLower (⟨lit "ABC", lit "N1", []⟩ : NormRow).sku ∧
    ((import_csv (some [lit "sku", lit "name"])
        [[(lit "sku", some (lit "ABC")), (lit "name", some (lit "N1"))],
         [(lit "sku", some (lit "abc")), (lit "name", some (lit "N2"))]]
        true []).state.table.map (fun q => q.sku)
      = [(⟨lit "ABC", lit "N1", []⟩ : NormRow).sku] ∧
     (import_csv (some [lit "sku", lit "name"])
        [[(lit "sku", some (lit "ABC")), (lit "name", some (lit "N1"))],
         [(lit "sku", some (lit "abc")), (lit "name", some (lit "N2"))]]
        true [⟨lit "OLD", lit "abc", lit "Old", [], true⟩]).state.table.map
        (fun q => q.sku)
      = [(⟨lit "abc", lit "N2", []⟩ : NormRow).sku]) :=
  ⟨by decide, by rfl, by rfl, by decide, by decide, by decide,
   by decide,
   csv_case_dup_amended [lit "sku", lit "name"]
     [(lit "sku", some (lit "ABC")), (lit "name", some (lit "N1"))]
     [(lit "sku", some (lit "abc")), (lit "name", some (lit "N2"))]
     ⟨lit "ABC", lit "N1", []⟩ ⟨lit "abc", lit "N2", []⟩
     ⟨lit "OLD", lit "abc", lit "Old", [], true⟩
     (by decide) (by rfl) (by rfl) (by decide) (by decide)
     (by decide) (by decide)⟩

set_option maxRecDepth 40000 in
/-- C6 counterexample: a one-row file whose normalized SKU is 256
characters long with a space at position 255 — so the 255-character
truncation ends in whitespace — is created on the first run, but on the
second run of the same file the row is dropped as a duplicate instead of
updated: created_count is 0 but updated_count is 0, not the number of
valid rows (1). -/
theorem idempotence_counterexample :
    ((import_csv (some [lit "sku", lit "name"])
        [[(lit "sku", some (List.replicate 254 'a' ++ [' ', 'b'])),
          (lit "name", some (lit "x"))]] true
        (import_csv (some [lit "sku", lit "name"])
          [[(lit "sku", some (List.replicate 254 'a' ++ [' ', 'b'])),
            (lit "name", some (lit "x"))]] true []).state.table).state.job.created_count
      = 0) ∧
    (([[(lit "sku", some (List.replicate 254 'a' ++ [' ', 'b'])),
        (lit "name", some (lit "x"))]] : List RawRow).filter isOkRow).length = 1 ∧
    ((import_csv (some [lit "sku", lit "name"])
        [[(lit "sku", some (List.replicate 254 'a' ++ [' ', 'b'])),
          (lit "name", some (lit "x"))]] true
        (import_csv (some [lit "sku", lit "name"])
          [[(lit "sku", some (List.replicate 254 'a' ++ [' ', 'b'])),
            (lit "name", some (lit "x"))]] true []).state.table).state.job.updated_count
      ≠ (([[(lit "sku", some (List.replicate 254 'a' ++ [' ', 'b'])),
            (lit "name", some (lit "x"))]] : List RawRow).filter isOkRow).length) := by
  refine ⟨rfl, rfl, by decide⟩

/-- C6 (amended): re-importing the same file into the table produced by a
first import yields zero creates and N updates on the second run, where N
is the number of valid rows — provided every valid row's normalized SKU
is whitespace-clean (rowGoodAfterNormalize), i.e. its 255-character
truncation does not end in whitespace. Without that proviso the second
run mis-routes such rows to the create path and drops them as duplicate
skips (see the counterexample), leaving updated_count short of N. Both
runs may use either skip_duplicates setting. -/
theorem idempotence_amended (hdrs : List Str) (rows : List RawRow)
    (table : List Product) (d1 d2 : Bool)
    (hv : validate_headers hdrs = none)
    (hg : ∀ r ∈ rows, rowGoodAfterNormalize r = true) :
    (import_csv (some hdrs) rows d2
        (import_csv (some hdrs) rows d1 table).state.table).state.job.created_count
      = 0 ∧
    (import_csv (some hdrs) rows d2
        (import_csv (some hdrs) rows d1 table).state.table).state.job.updated_count
      = (rows.filter isOkRow).length := by
  have hg2 : ∀ r ∈ rows, ∀ nr, normalize_row r = .ok nr → goodRow nr := by
    intro r hr nr hnr
    have := hg r hr
    rw [rowGoodAfterNormalize, hnr] at this
    exact of_decide_eq_true this
  have hgc : ∀ nr ∈ chunkOk rows, goodRow nr :=
    fun nr h => goodRow_of_chunkOk hg2 h
  have htab : (import_csv (some hdrs) rows d1 table).state.table
      = (importChunks d1
          ⟨{ initStats with total := rows.length },
           { initJob.mark_as_processing with total_rows := rows.length },
           table⟩ (chunksOf rows)).table := by
    simp only [import_csv, hv]
  rw [htab]
  by_cases hrows : rows = []
  · subst hrows
    constructor <;> (simp only [import_csv, hv]; rfl)
  · have hcs : chunksOf rows ≠ [] := by
      rw [chunksOf_cons hrows]
      simp
    have hcov := import_run1_covers d1 rows table hgc
    obtain ⟨_, s2, s3, _, _⟩ := importChunks_sync d2 (chunksOf rows)
      ⟨{ initStats with total := rows.length },
       { initJob.mark_as_processing with total_rows := rows.length },
       (importChunks d1
          ⟨{ initStats with total := rows.length },
           { initJob.mark_as_processing with total_rows := rows.length },
           table⟩ (chunksOf rows)).table⟩ hcs
    obtain ⟨r2a, r2b⟩ := import_run2_counts d2 rows
      (importChunks d1
        ⟨{ initStats with total := rows.length },
         { initJob.mark_as_processing with total_rows := rows.length },
         table⟩ (chunksOf rows)).table hgc hcov
    constructor
    · simp only [import_csv, hv]
      exact s2.trans r2a
    · simp only [import_csv, hv]
      exact s3.trans (r2b.trans (chunkOk_length_eq_filter rows))

/-- Witness for C6 (amended): importing a two-row file twice from an
empty table gives zero creates and two updates the second time. -/
theorem idempotence_amended_witness :
    validate_headers [lit "sku", lit "name"] = none ∧
    (∀ r ∈ ([[(lit "sku", some (lit "ABC")), (lit "name", some (lit "N1"))],
             [(lit "sku", some (lit "xy")), (lit "name", some (lit "N2"))]] :
            List RawRow), rowGoodAfterNormalize r = true) ∧
    ((import_csv (some [lit "sku", lit "name"])
        [[(lit "sku", some (lit "ABC")), (lit "name", some (lit "N1"))],
         [(lit "sku", some (lit "xy")), (lit "name", some (lit "N2"))]] true
        (import_csv (some [lit "sku", lit "name"])
          [[(lit "sku", some (lit "ABC")), (lit "name", some (lit "N1"))],
           [(lit "sku", some (lit "xy")), (lit "name", some (lit "N2"))]] true
          []).state.table).state.job.created_count = 0 ∧
     (import_csv (some [lit "sku", lit "name"])
        [[(lit "sku", some (lit "ABC")), (lit "name", some (lit "N1"))],
         [(lit "sku", some (lit "xy")), (lit "name", some (lit "N2"))]] true
        (import_csv (some [lit "sku", lit "name"])
          [[(lit "sku", some (lit "ABC")), (lit "name", some (lit "N1"))],
           [(lit "sku", some (lit "xy")), (lit "name", some (lit "N2"))]] true
          []).state.table).state.job.updated_count
       = (([[(lit "sku", some (lit "ABC")), (lit "name", some (lit "N1"))],
            [(lit "sku", some (lit "xy")), (lit "name", some (lit "N2"))]] :
           List RawRow).filter isOkRow).length) :=
  ⟨by decide, by decide,
   idempotence_amended [lit "sku", lit "name"]
     [[(lit "sku", some (lit "ABC")), (lit "name", some (lit "N1"))],
      [(lit "sku", some (lit "xy")), (lit "name", some (lit "N2"))]]
     [] true true (by decide) (by decide)⟩

/-- C10: when the atomic bulk operation for a chunk raises (modelled
deterministically: skip_duplicates off and a conflicting create set),
only the create-set rows are retried individually by the fallback path:
the table only gains create-set rows (no update is applied, so every
pre-existing row survives unchanged), the updated statistic and the
ledger's updated_count receive no contribution from the chunk, and every
error entry recorded is a pre-existing one, a normalization error, or a
per-row create failure naming a create-set SKU — never an entry for a
dropped update row. -/
theorem fallback_drops_updates (st : ImporterState) (rows : List RawRow)
    (h : chunkBulkRaises false st rows = true) :
    ∃ newPs,
      (process_chunk false st rows).table = st.table ++ newPs ∧
      (∀ p ∈ newPs, p ∈ createSet st rows) ∧
      (process_chunk false st rows).stats.updated = st.stats.updated ∧
      (process_chunk false st rows).job.updated_count
        = st.job.updated_count ∧
      ∀ e ∈ (process_chunk false st rows).job.error_details,
        e ∈ st.job.error_details ∨ isNormErr e.msg = true ∨
        ∃ p ∈ createSet st rows, e.msg = ErrMsg.bulkRowFailed p.sku := by
  obtain ⟨n2, ntab, _, _, _, nupd, _, _, _, ⟨es0, hes0, hshape0⟩, _, njupd, _,
    _⟩ := normalizeAux_spec rows st 0
  have hval := validAux_all (chunkOk rows) (normalizeAux st 0 rows).1
    (fun nr hmem => chunkOk_sku_ne_nil hmem)
  have hcr : createSet st rows
      = (partitionAux (normalizeAux st 0 rows).1.table
          ((chunkOk rows).map (fun nr => pyLower (pyStrip nr.sku)))
          ([], [], []) (chunkOk rows)).1 := by
    unfold createSet
    rw [n2, hval]
  unfold chunkBulkRaises at h
  rw [n2, hval] at h
  by_cases hempty : chunkOk rows = []
  · simp [hempty] at h
  · simp only [hempty, if_false] at h
    simp only [Bool.not_false, Bool.true_and, bne_iff_ne, ne_eq] at h
    rw [hcr] at h
    have hpc : process_chunk false st rows
        = fallbackCreates (normalizeAux st 0 rows).1
            (partitionAux (normalizeAux st 0 rows).1.table
              ((chunkOk rows).map (fun nr => pyLower (pyStrip nr.sku)))
              ([], [], []) (chunkOk rows)).1 := by
      unfold process_chunk chunkApply
      rw [n2, hval]
      simp only [hempty, if_false]
      rw [if_pos]
      exact ⟨by trivial, h⟩
    obtain ⟨newPs, f1, f2, f3, _, _, f6, _, _, ⟨es1, hes1, hshape1⟩⟩ :=
      fallbackCreates_spec
        (partitionAux (normalizeAux st 0 rows).1.table
          ((chunkOk rows).map (fun nr => pyLower (pyStrip nr.sku)))
          ([], [], []) (chunkOk rows)).1
        (normalizeAux st 0 rows).1
    rw [hpc]
    refine ⟨newPs, ?_, ?_, ?_, ?_, ?_⟩
    · rw [f1, ntab]
    · intro p hp
      rw [hcr]
      exact f2 p hp
    · rw [f3, nupd]
    · rw [f6, njupd]
    · intro e he
      rw [hes1, hes0, List.append_assoc] at he
      rcases List.mem_append.mp he with he | he
      · exact Or.inl he
      · rcases List.mem_append.mp he with he | he
        · exact Or.inr (Or.inl (hshape0 e he))
        · obtain ⟨p, hp, hpe⟩ := hshape1 e he
          exact Or.inr (Or.inr ⟨p, by rw [hcr]; exact hp, hpe⟩)

/-- Witness for C10: on an empty table with skip_duplicates off, a chunk
with case-conflicting SKUs "ABC" and "abc" makes the atomic block raise,
and the fallback conclusions hold. -/
theorem fallback_drops_updates_witness :
    chunkBulkRaises false ⟨initStats, initJob, []⟩
        [[(lit "sku", some (lit "ABC")), (lit "name", some (lit "N1"))],
         [(lit "sku", some (lit "abc")), (lit "name", some (lit "N2"))]]
      = true ∧
    ∃ newPs,
      (process_chunk false ⟨initStats, initJob, []⟩
          [[(lit "sku", some (lit "ABC")), (lit "name", some (lit "N1"))],
           [(lit "sku", some (lit "abc")), (lit "name", some (lit "N2"))]]).table
        = ([] : List Product) ++ newPs ∧
      (∀ p ∈ newPs, p ∈ createSet ⟨initStats, initJob, []⟩
          [[(lit "sku", some (lit "ABC")), (lit "name", some (lit "N1"))],
           [(lit "sku", some (lit "abc")), (lit "name", some (lit "N2"))]]) ∧
      (process_chunk false ⟨initStats, initJob, []⟩
          [[(lit "sku", some (lit "ABC")), (lit "name", some (lit "N1"))],
           [(lit "sku", some (lit "abc")), (lit "name", some (lit "N2"))]]).stats.updated
        = (⟨initStats, initJob, []⟩ : ImporterState).stats.updated ∧
      (process_chunk false ⟨initStats, initJob, []⟩
          [[(lit "sku", some (lit "ABC")), (lit "name", some (lit "N1"))],
           [(lit "sku", some (lit "abc")), (lit "name", some (lit "N2"))]]).job.updated_count
        = (⟨initStats, initJob, []⟩ : ImporterState).job.updated_count ∧
      ∀ e ∈ (process_chunk false ⟨initStats, initJob, []⟩
          [[(lit "sku", some (lit "ABC")), (lit "name", some (lit "N1"))],
           [(lit "sku", some (lit "abc")), (lit "name", some (lit "N2"))]]).job.error_details,
        e ∈ (⟨initStats, initJob, []⟩ : ImporterState).job.error_details ∨
        isNormErr e.msg = true ∨
        ∃ p ∈ createSet ⟨initStats, initJob, []⟩
          [[(lit "sku", some (lit "ABC")), (lit "name", some (lit "N1"))],
           [(lit "sku", some (lit "abc")), (lit "name", some (lit "N2"))]],
          e.msg = ErrMsg.bulkRowFailed p.sku :=
  ⟨by decide,
   fallback_drops_updates ⟨initStats, initJob, []⟩
     [[(lit "sku", some (lit "ABC")), (lit "name", some (lit "N1"))],
      [(lit "sku", some (lit "abc")), (lit "name", some (lit "N2"))]]
     (by decide)⟩

end ImportProduct
